import Mathlib

/-! xray-tlg: command lock, action dispatcher, menu renderer, file replacer,
network prober and start-up configuration.

A shallow embedding of `internal/handlers/handlers.go` and of the start-up
configuration in `cmd/config.go`.

* Go strings are byte sequences (`len` and slicing count bytes), so they are
  embedded as lists of bytes.
* `time.Time` is an instant counted in nanoseconds from Go's zero `Time`
  (`time.Time{}` is `0`); `time.Duration` is a signed 64-bit count of
  nanoseconds.
* The handler's mutex serialises every access to the lock fields, so each
  critical section is one atomic function on the handler state.
* Calls into the chat transport are recorded, in order, as a list of
  `BotCall`s.  Writes to the process log are not recorded.
* The file system maps a path to a file's content or to a directory; the
  system calls of the file replacer act on it, and fail either for a reason
  the map shows or for an outside reason given by `IoFaults`.
* `strings.TrimSpace` and `Duration.String` are library code taken as
  parameters; `filepath.Clean` follows its documented rules and the speedtest
  client the behaviour of `FetchServers` and `FindServer` in `speedtest-go`.
-/

namespace XrayTlg

/-! ## Strings, instants and durations -/

/-- A Go `string`: an immutable sequence of bytes. -/
abbrev GoString := List UInt8

/-- The bytes of a Go string literal (Go source text is UTF-8). -/
def goStr (s : String) : GoString := s.toUTF8.data.toList

/-! A `time.Time` is an `Int`, the nanoseconds since the zero `Time`; a
`time.Duration` is an `Int`, a number of nanoseconds. -/

/-- The zero value `time.Time{}`. -/
def zeroTime : Int := 0

/-- The largest `time.Duration`, `1<<63 - 1`. -/
def maxDuration : Int := 2 ^ 63 - 1

/-- The smallest `time.Duration`, `-1 << 63`. -/
def minDuration : Int := -(2 ^ 63)

/-- One `time.Millisecond`. -/
def millisecond : Int := 1000000

/-- One `time.Second`. -/
def second : Int := 1000000000

/-- The constant `defaultLockTimeout = 90 * time.Second`. -/
def defaultLockTimeout : Int := 90 * second

/-- The method `Time.Before`: `t` is strictly earlier than `u`. -/
def timeBefore (t u : Int) : Bool := decide (t < u)

/-- The method `Time.Add`. -/
def timeAdd (t : Int) (d : Int) : Int := t + d

/-- The method `Time.Sub`: the difference `t - u`, replaced by the largest or
smallest `Duration` when it does not fit in one. -/
def timeSub (t u : Int) : Int :=
  if t - u < minDuration then minDuration
  else if maxDuration < t - u then maxDuration
  else t - u

/-- The function `time.Until(t)`, which is `t.Sub(time.Now())`; `clock` is the
value of that `time.Now()`. -/
def timeUntil (t : Int) (clock : Nat) : Int := timeSub t (clock : Int)

/-- Wrap-around of a mathematical integer into the signed 64-bit range. -/
def wrapInt64 (x : Int) : Int := (x + 2 ^ 63) % 2 ^ 64 - 2 ^ 63

/-- The helper `lessThanHalf(x, y)` of package `time`:
`uint64(x)+uint64(x) < uint64(y)`. -/
def lessThanHalf (x y : Int) : Bool :=
  decide ((x % 2 ^ 64 + x % 2 ^ 64) % 2 ^ 64 < y % 2 ^ 64)

/-- The method `Duration.Round(m)`: `d` rounded to the nearest multiple of `m`,
halves away from zero, and the largest or smallest `Duration` when the rounded
value overflows. -/
def durationRound (d m : Int) : Int :=
  if m ≤ 0 then d
  else
    let r := Int.tmod d m
    if d < 0 then
      let r := -r
      if lessThanHalf r m then wrapInt64 (d + r)
      else
        let d1 := wrapInt64 (d - m + r)
        if d1 < d then d1 else minDuration
    else
      if lessThanHalf r m then wrapInt64 (d - r)
      else
        let d1 := wrapInt64 (d + m - r)
        if d1 > d then d1 else maxDuration

/-- Source: `roundDurationToSeconds`. -/
def roundDurationToSeconds (duration : Int) : Int :=
  if duration < 0 then 0 else durationRound duration second

/-! ## The command lock -/

/-- The fields of `Handler` other than the logger and the mutex. -/
structure Handler where
  xrayConfigsDir : GoString
  xrayConfigPath : GoString
  serviceName : GoString
  busyUntil : Int
  busyAction : GoString
  lockTimeout : Int
  deriving DecidableEq, Repr

/-- Source: `commandBusyError`. -/
structure commandBusyError where
  action : GoString
  remaining : Int
  deriving DecidableEq, Repr

/-- The closure `release` that `acquireCommandLock` returns on admission: it
captures the handler only, and clears both lock fields. -/
def release (h : Handler) : Handler :=
  { h with busyUntil := zeroTime, busyAction := [] }

/-- Source: `acquireCommandLock`.  `now` is the value of `now := time.Now()`
and `untilClock` the value of the second clock reading, made inside
`time.Until(h.busyUntil)` on the rejecting branch; the system clock never reads
earlier than the zero `Time`, so both are natural numbers.  The first component
is the returned error (`none` for `nil`, when the returned closure is
`release`), the second the handler state after the call. -/
def acquireCommandLock (h : Handler) (action : GoString) (now untilClock : Nat) :
    Option commandBusyError × Handler :=
  if timeBefore (now : Int) h.busyUntil then
    (some { action := h.busyAction, remaining := timeUntil h.busyUntil untilClock }, h)
  else
    (none, { h with busyAction := action, busyUntil := timeAdd (now : Int) h.lockTimeout })

/-- A handler as the test builds it (`&Handler{lockTimeout: ...}`): every other
field has its zero value, so the lock is free. -/
def newTestHandler (lockTimeout : Int) : Handler :=
  { xrayConfigsDir := [], xrayConfigPath := [], serviceName := [],
    busyUntil := zeroTime, busyAction := [], lockTimeout := lockTimeout }

/-! ## The chat transport -/

/-- The part of `models.Chat` the handlers read. -/
structure Chat where
  ID : Int
  deriving DecidableEq, Repr

/-- The part of `models.Message` the handlers read. -/
structure Message where
  ID : Int
  Chat : Chat
  deriving DecidableEq, Repr

/-- The type `models.MaybeInaccessibleMessageType`. -/
inductive MaybeInaccessibleMessageType where
  | Message
  | InaccessibleMessage
  deriving DecidableEq, Repr

/-- The part of `models.MaybeInaccessibleMessage` the handlers read; `none` is
a nil pointer, and `Type_` is the field `Type`. -/
structure MaybeInaccessibleMessage where
  Type_ : MaybeInaccessibleMessageType
  Message : Option Message
  deriving DecidableEq, Repr

/-- The part of `models.CallbackQuery` the handlers read. -/
structure CallbackQuery where
  ID : GoString
  Message : MaybeInaccessibleMessage
  Data : GoString
  deriving DecidableEq, Repr

/-- The part of `*models.Update` the handlers read; `none` is a nil pointer.
The update itself is never nil when the transport calls a handler. -/
structure Update where
  Message : Option Message
  CallbackQuery : Option CallbackQuery
  deriving DecidableEq, Repr

/-- The type `models.InlineKeyboardButton`. -/
structure InlineKeyboardButton where
  Text : GoString
  CallbackData : GoString
  deriving DecidableEq, Repr

/-- The type `models.InlineKeyboardMarkup`: rows of buttons. -/
structure InlineKeyboardMarkup where
  InlineKeyboard : List (List InlineKeyboardButton)
  deriving DecidableEq, Repr

/-- The text of an outgoing message: a literal, or the busy notice
`"⏳ Command already in progress: %s. Try again in %s."` with its two
arguments. -/
inductive MessageText where
  | literal (text : GoString)
  | busyNotice (action : GoString) (tryAgainIn : Int)
  deriving DecidableEq, Repr

/-- One call into the chat transport, with the parameters the handlers set
(the parse mode apart). -/
inductive BotCall where
  | AnswerCallbackQuery (callbackQueryID : GoString) (showAlert : Bool) (text : MessageText)
  | SendMessage (chatID : Int) (text : MessageText) (replyMarkup : Option InlineKeyboardMarkup)
  | EditMessageText (chatID : Int) (messageID : Int) (text : MessageText)
      (replyMarkup : Option InlineKeyboardMarkup)
  deriving DecidableEq, Repr

/-- What running an action body did: the transport calls it made, in order,
and whether it returned a non-nil error. -/
structure BodyResult where
  calls : List BotCall
  failed : Bool
  deriving DecidableEq, Repr

/-- The parameter `run` of `handleCallbackCommand`, applied to the chat
identifier, the message identifier and the update. -/
abbrev ActionBody := Int → Int → Update → BodyResult

/-- Source: `mainMenuKeyboard`. -/
def mainMenuKeyboard : InlineKeyboardMarkup :=
  { InlineKeyboard :=
      [ [{ Text := goStr "📂 Select Config", CallbackData := goStr "ls_config" }],
        [{ Text := goStr "📶 Run Speedtest", CallbackData := goStr "speedtest" }],
        [{ Text := goStr "🔄 Restart Xray", CallbackData := goStr "restart" }] ] }

/-! ## The action dispatcher -/

/-- Source: `getMessageChatID`. -/
def getMessageChatID (update : Update) : Option Int :=
  match update.Message with
  | none => none
  | some m => some m.Chat.ID

/-- The text `sendBusyMessage` formats. -/
def busyMessageText (busyErr : commandBusyError) : MessageText :=
  .busyNotice busyErr.action (roundDurationToSeconds busyErr.remaining)

/-- Source: `sendBusyMessage`, for the lock's own error (the only error
`acquireCommandLock` returns). -/
def sendBusyMessage (update : Update) (busyErr : commandBusyError) : List BotCall :=
  match update.CallbackQuery with
  | some callback => [.AnswerCallbackQuery callback.ID true (busyMessageText busyErr)]
  | none =>
    match getMessageChatID update with
    | none => []
    | some chatID => [.SendMessage chatID (busyMessageText busyErr) none]

/-- Source: `sendHandlerError`. -/
def sendHandlerError (chatID messageID : Int) : List BotCall :=
  [.EditMessageText chatID messageID
    (.literal (goStr "⚠️ Something went wrong. Please try again.")) (some mainMenuKeyboard)]

/-- Source: `handleCallbackCommand`.  The result is the handler state when the
dispatcher returns (the deferred `release()` has run) and the transport calls
made, in order. -/
def handleCallbackCommand (h : Handler) (update : Update) (action : GoString)
    (run : ActionBody) (now untilClock : Nat) : Handler × List BotCall :=
  match update.CallbackQuery with
  | none => (h, [])
  | some callback =>
    if callback.Message.Type_ ≠ MaybeInaccessibleMessageType.Message then (h, [])
    else
      match callback.Message.Message with
      | none => (h, [])
      | some message =>
        match acquireCommandLock h action now untilClock with
        | (some err, h1) => (h1, sendBusyMessage update err)
        | (none, h1) =>
          let chatID := message.Chat.ID
          let messageID := message.ID
          let answer := BotCall.AnswerCallbackQuery callback.ID false (.literal [])
          let body := run chatID messageID update
          if body.failed then
            (release h1, answer :: body.calls ++ sendHandlerError chatID messageID)
          else
            (release h1, answer :: body.calls)

/-- Source: `DefaultHandler`. -/
def DefaultHandler (h : Handler) (update : Update) (now untilClock : Nat) :
    Handler × List BotCall :=
  match acquireCommandLock h (goStr "main_menu") now untilClock with
  | (some err, h1) => (h1, sendBusyMessage update err)
  | (none, h1) =>
    match getMessageChatID update with
    | none => (release h1, [])
    | some chatID =>
      (release h1,
        [.SendMessage chatID
          (.literal (goStr "👋 Choose an action:\n• apply config\n• check speed\n• restart Xray"))
          (some mainMenuKeyboard)])

/-! ## Concurrent dispatchers -/

/-- The lock together with the clock and the action bodies that are executing
(newest first): a body executes from its dispatcher's admission until that
dispatcher's deferred `release()`. -/
structure Sys where
  h : Handler
  now : Nat
  running : List GoString
  deriving DecidableEq, Repr

/-- One step of the system: a dispatcher asks for the lock and on admission
starts its body; the `i`-th executing body returns and its dispatcher releases
the lock; the clock moves forward. -/
inductive Step where
  | dispatch (action : GoString)
  | finish (i : Nat)
  | advance (d : Nat)
  deriving DecidableEq, Repr

/-- The effect of one step. -/
def step (s : Sys) : Step → Sys
  | .dispatch action =>
    match acquireCommandLock s.h action s.now s.now with
    | (none, h1) => { s with h := h1, running := action :: s.running }
    | (some _, h1) => { s with h := h1 }
  | .finish i =>
    if i < s.running.length then
      { s with h := release s.h, running := s.running.eraseIdx i }
    else s
  | .advance d => { s with now := s.now + d }

/-- The state after a sequence of steps. -/
def runSteps (s : Sys) (steps : List Step) : Sys := steps.foldl step s

/-- The system at start-up: a free lock and no body executing. -/
def initSys (lockTimeout : Int) (now : Nat) : Sys :=
  { h := newTestHandler lockTimeout, now := now, running := [] }

/-- No executing body has outlived the busy window: either nothing executes or
the clock is still before `busyUntil`. -/
def withinBusyWindow (s : Sys) : Prop :=
  s.running = [] ∨ (s.now : Int) < s.h.busyUntil

instance (s : Sys) : Decidable (withinBusyWindow s) := by
  unfold withinBusyWindow; infer_instance

/-- Every state a sequence of steps passes through, the last included, keeps
the executing bodies within the busy window. -/
def staysWithinBusyWindow (s : Sys) : List Step → Prop
  | [] => True
  | st :: rest => withinBusyWindow (step s st) ∧ staysWithinBusyWindow (step s st) rest

/-- Whether a sequence of steps stays within the busy window can be computed. -/
def decideStaysWithinBusyWindow :
    (s : Sys) → (steps : List Step) → Decidable (staysWithinBusyWindow s steps)
  | _, [] => isTrue trivial
  | s, st :: rest =>
    match (inferInstance : Decidable (withinBusyWindow (step s st))),
      decideStaysWithinBusyWindow (step s st) rest with
    | isTrue h1, isTrue h2 => isTrue ⟨h1, h2⟩
    | isFalse h1, _ => isFalse (fun hboth => h1 hboth.1)
    | _, isFalse h2 => isFalse (fun hboth => h2 hboth.2)

instance (s : Sys) (steps : List Step) : Decidable (staysWithinBusyWindow s steps) :=
  decideStaysWithinBusyWindow s steps

/-- The invariant of the system while no body outlives the busy window. -/
def singleFlight (s : Sys) : Prop :=
  s.running.length ≤ 1 ∧ withinBusyWindow s

/-! ## Sample interactions -/

/-- A message with identifier 11 in chat 7. -/
def sampleMessage : Message := { ID := 11, Chat := { ID := 7 } }

/-- A button press on `sampleMessage`. -/
def sampleCallback : CallbackQuery :=
  { ID := goStr "q1",
    Message := { Type_ := MaybeInaccessibleMessageType.Message, Message := some sampleMessage },
    Data := goStr "restart" }

/-- An update that carries a button press. -/
def sampleCallbackUpdate : Update := { Message := none, CallbackQuery := some sampleCallback }

/-- An update that carries a plain message. -/
def sampleMessageUpdate : Update := { Message := some sampleMessage, CallbackQuery := none }

/-- An update that carries neither a message nor a button press (an edited
message or a channel post, say). -/
def sampleOtherUpdate : Update := { Message := none, CallbackQuery := none }

/-- An action body that shows a progress notice and then returns an error. -/
def sampleFailingBody : ActionBody := fun chatID messageID _ =>
  { calls := [.EditMessageText chatID messageID
      (.literal (goStr "🔄 Restarting the service, please wait...")) none],
    failed := true }

/-- An action body that edits the message to the main menu and returns nil. -/
def sampleMenuBody : ActionBody := fun chatID messageID _ =>
  { calls := [.EditMessageText chatID messageID
      (.literal (goStr "🏠 Main menu. Choose an action:")) (some mainMenuKeyboard)],
    failed := false }

/-- A handler whose lock `speedtest` holds until 90 s. -/
def sampleBusyHandler : Handler :=
  (acquireCommandLock (newTestHandler (90 * second)) (goStr "speedtest") 0 0).2

/-! ## The menu renderer -/

/-- The part of `os.DirEntry` the renderer reads. -/
structure DirEntry where
  Name : GoString
  IsDir : Bool
  deriving DecidableEq, Repr

/-- The bytes `strings.TrimSpace` removes from an ASCII string:
tab, line feed, vertical tab, form feed, carriage return and space. -/
def asciiSpace (c : UInt8) : Bool :=
  c = 9 || c = 10 || c = 11 || c = 12 || c = 13 || c = 32

/-- The function `strings.TrimSpace` on a string of ASCII bytes: leading and
trailing white space removed. -/
def asciiTrimSpace (s : GoString) : GoString :=
  ((s.dropWhile asciiSpace).reverse.dropWhile asciiSpace).reverse

/-- Source: `shortenFileName`, with `strings.TrimSpace` as the parameter
`trimSpace`. -/
def shortenFileName (trimSpace : GoString → GoString) (fileName : GoString) : GoString :=
  let fileName := trimSpace fileName
  if fileName.length ≤ 24 then fileName
  else fileName.take 12 ++ goStr "..." ++ fileName.drop (fileName.length - 9)

/-- Source: `makeCopyFileCallbackData`. -/
def makeCopyFileCallbackData (fileName : GoString) : GoString :=
  goStr "cp_" ++ fileName

/-- The function `strings.HasPrefix`. -/
def stringsHasPrefix (s pre : GoString) : Bool := pre.isPrefixOf s

/-- The function `strings.TrimPrefix`: `s` without the leading `pre`, or `s`
itself when it does not start with `pre`. -/
def stringsTrimPrefix (s pre : GoString) : GoString :=
  if stringsHasPrefix s pre then s.drop pre.length else s

/-- The file name `CopyConfigXrayHandler` reads back from a callback payload:
`strings.TrimPrefix(update.CallbackQuery.Data, "cp_")`. -/
def copyConfigFileName (data : GoString) : GoString :=
  stringsTrimPrefix data (goStr "cp_")

/-- The first row `buildConfigListKeyboard` puts on every keyboard. -/
def backToMainMenuRow : List InlineKeyboardButton :=
  [{ Text := goStr "⬅️ Back to Main Menu", CallbackData := goStr "main" }]

/-- The row `buildConfigListKeyboard` appends for a listed entry. -/
def configRow (trimSpace : GoString → GoString) (entry : DirEntry) :
    List InlineKeyboardButton :=
  [{ Text := shortenFileName trimSpace entry.Name,
     CallbackData := makeCopyFileCallbackData entry.Name }]

/-- Source: `buildConfigListKeyboard`; the loop over `entries` is a left
fold that appends to `buttons`. -/
def buildConfigListKeyboard (trimSpace : GoString → GoString) (entries : List DirEntry) :
    InlineKeyboardMarkup :=
  let buttons : List (List InlineKeyboardButton) := [backToMainMenuRow]
  let buttons := entries.foldl
    (fun buttons entry =>
      if entry.IsDir then buttons
      else if entry.Name = goStr "config.json" then buttons
      else buttons ++ [configRow trimSpace entry])
    buttons
  { InlineKeyboard := buttons }

/-- The file name of the active configuration path: what follows its last
slash.  The renderer never computes it; it is the name the exclusion rule of
the specification speaks of. -/
def activeConfigFileName (xrayConfigPath : GoString) : GoString :=
  (xrayConfigPath.reverse.takeWhile (fun c => c ≠ 47)).reverse

/-- The entries `buildConfigListKeyboard` lists: neither a directory nor named
`config.json`. -/
def isListedEntry (entry : DirEntry) : Bool :=
  !entry.IsDir && decide (entry.Name ≠ goStr "config.json")

/-! ## Start-up configuration (`cmd/config.go`) -/

/-- Source: `Config`. -/
structure Config where
  RunMode : GoString
  ConfigPath : GoString
  Token : GoString
  XrayConfigsDir : GoString
  XrayConfigPath : GoString
  ServiceName : GoString
  LockTimeout : GoString
  LogLevel : GoString
  deriving DecidableEq, Repr

/-- The constant `runModeConsole`. -/
def runModeConsole : GoString := goStr "console"

/-- The constant `runModeService`. -/
def runModeService : GoString := goStr "service"

/-- Source: `finalizeConsoleConfig`. -/
def finalizeConsoleConfig (cfg : Config) : Config :=
  let cfg := if cfg.XrayConfigsDir = [] then
    { cfg with XrayConfigsDir := goStr "./xray-configs" } else cfg
  let cfg := if cfg.XrayConfigPath = [] then
    { cfg with XrayConfigPath := goStr "./xray-configs/config.json" } else cfg
  let cfg := if cfg.ServiceName = [] then
    { cfg with ServiceName := goStr "xray" } else cfg
  cfg

/-- Source: `finalizeServiceConfig`. -/
def finalizeServiceConfig (cfg : Config) : Config :=
  let cfg := if cfg.XrayConfigsDir = [] then
    { cfg with XrayConfigsDir := goStr "/usr/local/etc/xray" } else cfg
  let cfg := if cfg.XrayConfigPath = [] then
    { cfg with XrayConfigPath := goStr "/etc/xray/config.json" } else cfg
  let cfg := if cfg.ServiceName = [] then
    { cfg with ServiceName := goStr "xray" } else cfg
  cfg

/-- Source: `finalizeConfigByRunMode`; an error is the text of the returned
error (the returned `Config{}` is then dropped). -/
def finalizeConfigByRunMode (cfg : Config) : Except GoString Config :=
  if cfg.RunMode = runModeConsole then .ok (finalizeConsoleConfig cfg)
  else if cfg.RunMode = runModeService then .ok (finalizeServiceConfig cfg)
  else .error (goStr "unsupported run mode: " ++ cfg.RunMode)

/-- Source: `hasFlagArg`; the loop over `args` is a recursion on the list. -/
def hasFlagArg : List GoString → GoString → GoString → Bool
  | [], _, _ => false
  | arg :: rest, short, long =>
    if arg = short ∨ arg = long then true
    else if stringsHasPrefix arg (short ++ goStr "=")
        || stringsHasPrefix arg (long ++ goStr "=") then true
    else if arg = goStr "--" then false
    else hasFlagArg rest short long

/-- An argument names the flag: it is the short or the long name, or starts
with one of them followed by `=`. -/
def namesFlag (arg short long : GoString) : Bool :=
  decide (arg = short) || decide (arg = long)
    || stringsHasPrefix arg (short ++ goStr "=")
    || stringsHasPrefix arg (long ++ goStr "=")

/-- The arguments that come before the first `--` terminator. -/
def beforeTerminator (args : List GoString) : List GoString :=
  args.takeWhile (fun arg => decide (arg ≠ goStr "--"))

/-- A configuration read from a file that sets every field but the service
name, in service mode. -/
def sampleServiceConfig : Config :=
  { RunMode := goStr "service", ConfigPath := goStr "/tmp/xray-tlg.json",
    Token := goStr "json-token", XrayConfigsDir := goStr "/tmp/custom-configs",
    XrayConfigPath := goStr "/tmp/custom-active.json", ServiceName := [],
    LockTimeout := goStr "33s", LogLevel := goStr "debug" }

/-! ## The network prober -/

/-- A `*speedtest.Server` as `runSpeedTest` sees it: the identity of the
target, the error text each probe returns on it (`none` for nil), and the
measurements the probes leave in its fields (`PacketLoss`, `DLSpeed` and
`ULSpeed` as rendered by their `String()` methods). -/
structure Server where
  Host : GoString
  Name : GoString
  Sponsor : GoString
  Country : GoString
  PingTestContext : Option GoString
  DownloadTestContext : Option GoString
  UploadTestContext : Option GoString
  Latency : Int
  Jitter : Int
  PacketLoss : GoString
  DLSpeed : GoString
  ULSpeed : GoString
  deriving DecidableEq, Repr

/-- The speedtest client: what `client.FetchServers()` returns, and what
`serverList.FindServer([]int{})` returns on a server list; an error is its
text. -/
structure SpeedtestClient where
  FetchServers : Except GoString (List Server)
  FindServer : List Server → Except GoString (List Server)

/-- Source: `speedTestResult`. -/
structure speedTestResult where
  Host : GoString
  ServerName : GoString
  Sponsor : GoString
  Country : GoString
  Latency : Int
  Jitter : Int
  PacketLoss : GoString
  Download : GoString
  Upload : GoString
  deriving DecidableEq, Repr

/-- A probe step started on the target with the given host. -/
inductive ProbeStep where
  | ping (host : GoString)
  | download (host : GoString)
  | upload (host : GoString)
  deriving DecidableEq, Repr

/-- Source: `runSpeedTest`.  The result is the returned value or the text of
the returned error, and the probe steps started, in order. -/
def runSpeedTest (client : SpeedtestClient) :
    Except GoString speedTestResult × List ProbeStep :=
  match client.FetchServers with
  | .error err => (.error (goStr "fetch speedtest servers: " ++ err), [])
  | .ok serverList =>
    match client.FindServer serverList with
    | .error err => (.error (goStr "find speedtest target: " ++ err), [])
    | .ok [] => (.error (goStr "no speedtest server available"), [])
    | .ok (target :: _) =>
      match target.PingTestContext with
      | some err => (.error (goStr "ping test failed: " ++ err), [.ping target.Host])
      | none =>
        match target.DownloadTestContext with
        | some err =>
          (.error (goStr "download test failed: " ++ err),
            [.ping target.Host, .download target.Host])
        | none =>
          match target.UploadTestContext with
          | some err =>
            (.error (goStr "upload test failed: " ++ err),
              [.ping target.Host, .download target.Host, .upload target.Host])
          | none =>
            (.ok
              { Host := target.Host, ServerName := target.Name, Sponsor := target.Sponsor,
                Country := target.Country, Latency := target.Latency, Jitter := target.Jitter,
                PacketLoss := target.PacketLoss, Download := target.DLSpeed,
                Upload := target.ULSpeed },
              [.ping target.Host, .download target.Host, .upload target.Host])

/-- A measurement target. -/
def sampleServer : Server :=
  { Host := goStr "speedtest.example.net:8080", Name := goStr "Riga",
    Sponsor := goStr "Example", Country := goStr "Latvia",
    PingTestContext := none, DownloadTestContext := none, UploadTestContext := none,
    Latency := 12 * millisecond, Jitter := millisecond,
    PacketLoss := goStr "0.00%", DLSpeed := goStr "93.10 Mbps", ULSpeed := goStr "41.70 Mbps" }

/-- The error `speedtest.ErrServerNotFound` of the library `speedtest-go`. -/
def errServerNotFound : GoString := goStr "no server available or found"

/-- The client `speedtest.New()` of the library `speedtest-go`, by the
behaviour of its two calls.  `discovery` is the outcome of the server-list
request (its error, or the servers received) and `lowestLatencyIndex` the
index of the server the library prefers in a list.  `FetchServers` reports an
empty list as `ErrServerNotFound`; `FindServer([]int{})` reports an empty
list as `ErrServerNotFound` and otherwise, no identifier being asked for,
falls back to one server of the list. -/
def speedtestGoClient (discovery : Except GoString (List Server))
    (lowestLatencyIndex : List Server → Nat) : SpeedtestClient :=
  { FetchServers :=
      match discovery with
      | .error err => .error err
      | .ok [] => .error errServerNotFound
      | .ok (server :: servers) => .ok (server :: servers)
    FindServer := fun servers =>
      match servers with
      | [] => .error errServerNotFound
      | server :: rest =>
        .ok [(server :: rest).getD (lowestLatencyIndex (server :: rest)) server] }

/-! ## The file replacer -/

/-- What a path names: a regular file with its content, or a directory. -/
inductive FsNode where
  | file (content : List UInt8)
  | dir
  deriving DecidableEq, Repr

/-- The file system: what each path names, if anything.  The keys are
compared as they are spelled, so one file has one key (hard links are not
modelled): `copyConfigFile` takes the paths themselves as keys,
`copyConfigFileAt` takes the location each path names. -/
abbrev FileSystem := GoString → Option FsNode

/-- The file system with `path` naming `node` (or nothing). -/
def fsSet (fs : FileSystem) (path : GoString) (node : Option FsNode) : FileSystem :=
  fun p => if p = path then node else fs p

/-- The system calls of `copyConfigFile` that fail for a reason outside the
model (permissions, a missing parent directory, an input-output error);
`copyFailsAfter = some n` makes `io.Copy` fail once `n` bytes are written. -/
structure IoFaults where
  statFails : Bool
  openFails : Bool
  createFails : Bool
  copyFailsAfter : Option Nat
  closeFails : Bool
  renameFails : Bool
  deriving DecidableEq, Repr

/-- No system call fails for an outside reason. -/
def noFaults : IoFaults :=
  { statFails := false, openFails := false, createFails := false, copyFailsAfter := none,
    closeFails := false, renameFails := false }

/-- The errors of `copyConfigFile`, one for each message it wraps:
`source file check failed`, `source path is a directory`, `open source file`,
`create destination temp file`, `copy config file`,
`close destination temp file`, `replace destination file`. -/
inductive CopyError where
  | sourceCheckFailed
  | sourceIsDirectory
  | openSourceFile
  | createTempFile
  | copyFile
  | closeTempFile
  | replaceDestination
  deriving DecidableEq, Repr

/-- The bytes a reader of the file at `path` gets. -/
def fsRead (fs : FileSystem) (path : GoString) : List UInt8 :=
  match fs path with
  | some (.file content) => content
  | _ => []

/-- Source: `copyConfigFile`.  `os.Stat` fails on a path that names nothing,
`os.Create` truncates or creates the file at the temporary path and fails on
a directory, `io.Copy` reads the open source file after that, and `os.Rename`
moves the temporary file over the destination and fails on a directory.  The
result is the returned error (`none` for nil) and the file system after the
call. -/
def copyConfigFile (faults : IoFaults) (fs : FileSystem)
    (sourcePath destinationPath : GoString) : Option CopyError × FileSystem :=
  match (if faults.statFails then none else fs sourcePath) with
  | none => (some .sourceCheckFailed, fs)
  | some .dir => (some .sourceIsDirectory, fs)
  | some (.file _) =>
    if faults.openFails then (some .openSourceFile, fs)
    else
      let tempPath := destinationPath ++ goStr ".tmp"
      if faults.createFails || decide (fs tempPath = some .dir) then (some .createTempFile, fs)
      else
        let fs1 := fsSet fs tempPath (some (.file []))
        let content := fsRead fs1 sourcePath
        match faults.copyFailsAfter with
        | some n => (some .copyFile, fsSet fs1 tempPath (some (.file (content.take n))))
        | none =>
          let fs2 := fsSet fs1 tempPath (some (.file content))
          if faults.closeFails then (some .closeTempFile, fs2)
          else if faults.renameFails || decide (fs2 destinationPath = some .dir) then
            (some .replaceDestination, fs2)
          else
            (none, fsSet (fsSet fs2 tempPath none) destinationPath (fs2 tempPath))

/-- Source: `copyConfigFile`, on a file system keyed by location: `locate path`
is the canonical spelling of the location that `path` names (what the
kernel's path resolution finds), so two spellings of one file share one
entry.  The steps are those of `copyConfigFile`. -/
def copyConfigFileAt (locate : GoString → GoString) (faults : IoFaults) (fs : FileSystem)
    (sourcePath destinationPath : GoString) : Option CopyError × FileSystem :=
  match (if faults.statFails then none else fs (locate sourcePath)) with
  | none => (some .sourceCheckFailed, fs)
  | some .dir => (some .sourceIsDirectory, fs)
  | some (.file _) =>
    if faults.openFails then (some .openSourceFile, fs)
    else
      let tempPath := destinationPath ++ goStr ".tmp"
      if faults.createFails || decide (fs (locate tempPath) = some .dir) then
        (some .createTempFile, fs)
      else
        let fs1 := fsSet fs (locate tempPath) (some (.file []))
        let content := fsRead fs1 (locate sourcePath)
        match faults.copyFailsAfter with
        | some n =>
          (some .copyFile, fsSet fs1 (locate tempPath) (some (.file (content.take n))))
        | none =>
          let fs2 := fsSet fs1 (locate tempPath) (some (.file content))
          if faults.closeFails then (some .closeTempFile, fs2)
          else if faults.renameFails || decide (fs2 (locate destinationPath) = some .dir) then
            (some .replaceDestination, fs2)
          else
            (none,
              fsSet (fsSet fs2 (locate tempPath) none) (locate destinationPath)
                (fs2 (locate tempPath)))

/-- A configuration directory that holds `client-eu.json` and a left-over
`config.json.tmp`, and the active file `config.json`. -/
def sampleFs : FileSystem := fun p =>
  if p = goStr "/etc/xray" then some .dir
  else if p = goStr "/etc/xray/client-eu.json" then some (.file (goStr "eu"))
  else if p = goStr "/etc/xray/config.json.tmp" then some (.file (goStr "asia"))
  else if p = goStr "/etc/xray/config.json" then some (.file (goStr "us"))
  else none

/-- The default console configuration, keyed by cleaned path: the directory
`xray-configs` holds a left-over `config.json.tmp` and the active file
`config.json`. -/
def sampleConsoleFs : FileSystem := fun p =>
  if p = goStr "xray-configs" then some .dir
  else if p = goStr "xray-configs/config.json.tmp" then some (.file (goStr "asia"))
  else if p = goStr "xray-configs/config.json" then some (.file (goStr "us"))
  else none

/-! ## Paths (`path/filepath` on Unix) -/

/-- The byte `/`, the path separator. -/
def slash : UInt8 := 47

/-- Whether a path starts with the separator. -/
def isRooted (path : GoString) : Bool := path.head? = some slash

/-- The elements of a path: the byte strings between its separators. -/
def splitSlash : GoString → List GoString
  | [] => [[]]
  | c :: rest =>
    if c = slash then [] :: splitSlash rest
    else
      match splitSlash rest with
      | [] => [[c]]
      | elem :: elems => (c :: elem) :: elems

/-- The elements joined by single separators. -/
def joinSlash : List GoString → GoString
  | [] => []
  | [elem] => elem
  | elem :: next :: elems => elem ++ slash :: joinSlash (next :: elems)

/-- One element processed by `filepath.Clean`, `out` being the elements kept
so far: an empty element and `.` are dropped; `..` removes the last kept
element, is dropped at the root, and is kept at the start of a path that is
not rooted; any other element is kept. -/
def cleanStep (rooted : Bool) (out : List GoString) (elem : GoString) : List GoString :=
  if elem = [] ∨ elem = goStr "." then out
  else if elem = goStr ".." then
    match out.getLast? with
    | some last => if last = goStr ".." then out ++ [elem] else out.dropLast
    | none => if rooted then out else out ++ [elem]
  else out ++ [elem]

/-- The elements of the cleaned path. -/
def cleanElems (path : GoString) : List GoString :=
  (splitSlash path).foldl (cleanStep (isRooted path)) []

/-- The function `filepath.Clean`, by its documented rules: the shortest path
that names the same file by purely lexical processing, `.` for the empty
path. -/
def filepathClean (path : GoString) : GoString :=
  if path = [] then goStr "."
  else if isRooted path then slash :: joinSlash (cleanElems path)
  else if cleanElems path = [] then goStr "."
  else joinSlash (cleanElems path)

/-- The function `filepath.Join` on two elements: empty elements are ignored,
the others are joined by a separator and the result is cleaned. -/
def filepathJoin (dir name : GoString) : GoString :=
  if dir ≠ [] then filepathClean (dir ++ slash :: name)
  else if name ≠ [] then filepathClean name
  else []

/-- The source path `CopyConfigXrayHandler` hands to `copyConfigFile` for a
callback payload: `filepath.Join(h.xrayConfigsDir, fileName)` with `fileName`
the payload stripped of `cp_`. -/
def copyConfigSourcePath (h : Handler) (data : GoString) : GoString :=
  filepathJoin h.xrayConfigsDir (copyConfigFileName data)

/-- A path names an entry inside a directory: both are rooted or both are
not, and the cleaned path is the cleaned directory followed by at least one
element, none of them `..`. -/
def isInsideDir (dir path : GoString) : Bool :=
  (isRooted dir == isRooted path)
    && (cleanElems dir).isPrefixOf (cleanElems path)
    && decide ((cleanElems dir).length < (cleanElems path).length)
    && !(((cleanElems path).drop (cleanElems dir).length).contains (goStr ".."))

/-- A file name as a directory listing gives it: not empty, without a
separator, and neither `.` nor `..`. -/
def isPlainName (name : GoString) : Prop :=
  name ≠ [] ∧ slash ∉ name ∧ name ≠ goStr "." ∧ name ≠ goStr ".."

/-- The elements kept by `filepath.Clean` at some point: none is empty, `.`
or holds a separator; every element before a `..` is a `..`; a rooted path
keeps no `..`. -/
def CleanStack (rooted : Bool) (out : List GoString) : Prop :=
  (∀ elem ∈ out, elem ≠ [] ∧ elem ≠ goStr "." ∧ slash ∉ elem)
  ∧ out.Pairwise (fun before after => after = goStr ".." → before = goStr "..")
  ∧ (rooted = true → goStr ".." ∉ out)

/-- A handler whose configuration directory is `/etc/xray`. -/
def sampleXrayHandler : Handler :=
  { newTestHandler (90 * second) with
    xrayConfigsDir := goStr "/etc/xray", xrayConfigPath := goStr "/etc/xray/config.json",
    serviceName := goStr "xray" }

/-! ## The callback handlers -/

/-- Source: `formatSpeedTestMessage`, with the method `Duration.String` as the
parameter `durationString`. -/
def formatSpeedTestMessage (durationString : Int → GoString) (r : speedTestResult) :
    GoString :=
  goStr "<b>📶 Speedtest Result</b>\n\n<b>🛰 Server:</b> " ++ r.ServerName
    ++ goStr " (" ++ r.Sponsor ++ goStr ", " ++ r.Country
    ++ goStr ")\n<b>🌐 Host:</b> <code>" ++ r.Host
    ++ goStr "</code>\n<b>⏱ Latency:</b> " ++ durationString (durationRound r.Latency millisecond)
    ++ goStr "\n<b>📉 Jitter:</b> " ++ durationString (durationRound r.Jitter millisecond)
    ++ goStr "\n<b>📦 Packet loss:</b> " ++ r.PacketLoss
    ++ goStr "\n<b>⬇️ Download:</b> " ++ r.Download
    ++ goStr "\n<b>⬆️ Upload:</b> " ++ r.Upload

/-- The five handlers that call `handleCallbackCommand`, each with what its
action body meets outside the handler: the directory listing `os.ReadDir`
returns and `strings.TrimSpace`; the error of `restartService` (`none` for
nil); the file system, its path resolution and its failures; the speedtest
client and `Duration.String`. -/
inductive CallbackHandler where
  | ListConfigXrayHandler (trimSpace : GoString → GoString)
      (readDir : Except GoString (List DirEntry))
  | RestartXrayHandler (restartService : Option GoString)
  | CopyConfigXrayHandler (locate : GoString → GoString) (faults : IoFaults) (fs : FileSystem)
  | SpeedtestHandler (durationString : Int → GoString) (client : SpeedtestClient)
  | MainHandler

/-- The action name each handler passes to `handleCallbackCommand`. -/
def callbackAction : CallbackHandler → GoString
  | .ListConfigXrayHandler _ _ => goStr "list_configs"
  | .RestartXrayHandler _ => goStr "restart_service"
  | .CopyConfigXrayHandler _ _ _ => goStr "copy_config"
  | .SpeedtestHandler _ _ => goStr "speedtest"
  | .MainHandler => goStr "main_menu"

/-- Source: the closures `ListConfigXrayHandler`, `RestartXrayHandler`,
`CopyConfigXrayHandler`, `SpeedtestHandler` and `MainHandler` pass to
`handleCallbackCommand` as `run`.  `editFails n` tells whether the `n`-th
`EditMessageText` of the body (from 0) returns an error; the call is recorded
either way.  The copy body reads `update.CallbackQuery.Data`, which the
dispatcher's guard has found not nil. -/
def callbackBody (h : Handler) (editFails : Nat → Bool) : CallbackHandler → ActionBody
  | .ListConfigXrayHandler trimSpace readDir => fun chatID messageID _ =>
    match readDir with
    | .error _ => { calls := [], failed := true }
    | .ok dirEntries =>
      { calls := [.EditMessageText chatID messageID
          (.literal (goStr "📂 Choose a config to activate:"))
          (some (buildConfigListKeyboard trimSpace dirEntries))],
        failed := editFails 0 }
  | .RestartXrayHandler restartService => fun chatID messageID _ =>
    let progress := BotCall.EditMessageText chatID messageID
      (.literal (goStr "🔄 Restarting the service, please wait...")) none
    if editFails 0 then { calls := [progress], failed := true }
    else
      match restartService with
      | some _ => { calls := [progress], failed := true }
      | none =>
        { calls := [progress, .EditMessageText chatID messageID
            (.literal (goStr "✅ Service <code>" ++ h.serviceName
              ++ goStr "</code> restarted successfully."))
            (some mainMenuKeyboard)],
          failed := editFails 1 }
  | .CopyConfigXrayHandler locate faults fs => fun chatID messageID update =>
    let data := match update.CallbackQuery with
      | some callback => callback.Data
      | none => []
    let fileName := copyConfigFileName data
    let progress := BotCall.EditMessageText chatID messageID
      (.literal (goStr "🛠 Applying the selected config...")) none
    if editFails 0 then { calls := [progress], failed := true }
    else
      match (copyConfigFileAt locate faults fs (filepathJoin h.xrayConfigsDir fileName)
          h.xrayConfigPath).1 with
      | some _ => { calls := [progress], failed := true }
      | none =>
        { calls := [progress, .EditMessageText chatID messageID
            (.literal (goStr "✅ Config <code>" ++ fileName
              ++ goStr "</code> was applied to <code>" ++ h.xrayConfigPath ++ goStr "</code>."))
            (some mainMenuKeyboard)],
          failed := editFails 1 }
  | .SpeedtestHandler durationString client => fun chatID messageID _ =>
    let progress := BotCall.EditMessageText chatID messageID
      (.literal (goStr "📶 Running speedtest. This can take up to 90 seconds...")) none
    if editFails 0 then { calls := [progress], failed := true }
    else
      match (runSpeedTest client).1 with
      | .error _ => { calls := [progress], failed := true }
      | .ok result =>
        { calls := [progress, .EditMessageText chatID messageID
            (.literal (formatSpeedTestMessage durationString result))
            (some mainMenuKeyboard)],
          failed := editFails 1 }
  | .MainHandler => fun chatID messageID _ =>
    { calls := [.EditMessageText chatID messageID
        (.literal (goStr "🏠 Main menu. Choose an action:")) (some mainMenuKeyboard)],
      failed := editFails 0 }

/-- A callback handler run on an update: `handleCallbackCommand` with the
handler's action name and body. -/
def runCallbackHandler (h : Handler) (editFails : Nat → Bool) (handler : CallbackHandler)
    (update : Update) (now untilClock : Nat) : Handler × List BotCall :=
  handleCallbackCommand h update (callbackAction handler) (callbackBody h editFails handler)
    now untilClock

/-- The text of the generic failure notice. -/
def failureNoticeText : GoString := goStr "⚠️ Something went wrong. Please try again."

/-- A transport that accepts every call. -/
def transportAccepts : Nat → Bool := fun _ => false

/-! ## The command lock: theorems -/

theorem timeSub_le_of_pos (t u v : Int) (hpos : 0 < t - v) (hle : v ≤ u) :
    timeSub t u ≤ t - v := by
  unfold timeSub minDuration maxDuration
  split_ifs <;> omega

theorem timeSub_pos_iff (t u : Int) : 0 < timeSub t u ↔ u < t := by
  unfold timeSub minDuration maxDuration
  split_ifs <;> constructor <;> intro _ <;> omega

theorem timeSub_eq_of_fits (t u : Int) (hlo : 0 ≤ t - u) (hhi : t - u ≤ maxDuration) :
    timeSub t u = t - u := by
  unfold timeSub
  unfold minDuration
  unfold maxDuration at hhi ⊢
  split_ifs <;> omega

theorem acquireCommandLock_of_not_before (h : Handler) (action : GoString)
    (now untilClock : Nat) (hfree : ¬ (now : Int) < h.busyUntil) :
    acquireCommandLock h action now untilClock =
      (none, { h with busyAction := action, busyUntil := (now : Int) + h.lockTimeout }) := by
  simp [acquireCommandLock, timeBefore, timeAdd, hfree]

theorem acquireCommandLock_of_before (h : Handler) (action : GoString)
    (now untilClock : Nat) (hbusy : (now : Int) < h.busyUntil) :
    acquireCommandLock h action now untilClock =
      (some { action := h.busyAction, remaining := timeSub h.busyUntil untilClock }, h) := by
  simp [acquireCommandLock, timeBefore, timeUntil, hbusy]

/-- C1, as stated, fails: a lock taken at time 0 with a 90 s timeout and
requested again one nanosecond before it expires is rejected, and when the
clock reaches the expiry before `time.Until` reads it the error carries a
remaining time of zero, which is neither greater than zero nor the difference
`busyUntil - now` (one nanosecond). -/
theorem acquireCommandLock_remaining_zero :
    (acquireCommandLock
        (acquireCommandLock (newTestHandler (90 * second)) (goStr "speedtest") 0 0).2
        (goStr "restart") 89999999999 90000000000).1
      = some { action := goStr "speedtest", remaining := 0 }
    ∧ (acquireCommandLock (newTestHandler (90 * second)) (goStr "speedtest") 0 0).2.busyUntil
        - ((89999999999 : Nat) : Int) = 1 := by
  decide

/-- C1, amended: `acquireCommandLock` admits the caller exactly when `now` is
not before `busyUntil`.  On admission the state becomes `busyAction = action`,
`busyUntil = now + lockTimeout`.  Otherwise the call is rejected, the state is
unchanged, and the error carries the held action name and the time remaining
at the second clock reading `untilClock ≥ now` (saturated to a `Duration`):
this is at most `busyUntil - now`, it is greater than zero exactly when
`untilClock` is still before `busyUntil`, and it is `busyUntil - now > 0` when
the clock did not move between the two readings and the difference fits a
`Duration`. -/
theorem acquireCommandLock_contract (h : Handler) (action : GoString)
    (now untilClock : Nat) (hclock : now ≤ untilClock) :
    ((acquireCommandLock h action now untilClock).1 = none ↔ ¬ (now : Int) < h.busyUntil)
    ∧ (¬ (now : Int) < h.busyUntil →
        acquireCommandLock h action now untilClock =
          (none, { h with busyAction := action, busyUntil := (now : Int) + h.lockTimeout }))
    ∧ ((now : Int) < h.busyUntil →
        acquireCommandLock h action now untilClock =
          (some { action := h.busyAction, remaining := timeSub h.busyUntil untilClock }, h)
        ∧ timeSub h.busyUntil untilClock ≤ h.busyUntil - now
        ∧ (0 < timeSub h.busyUntil untilClock ↔ (untilClock : Int) < h.busyUntil)
        ∧ (untilClock = now → h.busyUntil - now ≤ maxDuration →
            timeSub h.busyUntil untilClock = h.busyUntil - now ∧ 0 < h.busyUntil - now)) := by
  refine ⟨?_, ?_, ?_⟩
  · by_cases hb : (now : Int) < h.busyUntil
    · simp [acquireCommandLock_of_before h action now untilClock hb, hb]
    · simp [acquireCommandLock_of_not_before h action now untilClock hb, hb]
  · intro hfree
    exact acquireCommandLock_of_not_before h action now untilClock hfree
  · intro hbusy
    refine ⟨acquireCommandLock_of_before h action now untilClock hbusy, ?_, ?_, ?_⟩
    · exact timeSub_le_of_pos _ _ _ (by omega) (by exact_mod_cast hclock)
    · exact timeSub_pos_iff _ _
    · intro heq hfits
      subst heq
      exact ⟨timeSub_eq_of_fits _ _ (by omega) hfits, by omega⟩

/-- C1, amended, at the example of the specification: a lock taken with a
90 s timeout and requested again 1 s later is rejected with 89 s remaining. -/
theorem acquireCommandLock_contract_witness :
    1000000000 ≤ 1000000000
    ∧ (acquireCommandLock
        (acquireCommandLock (newTestHandler (90 * second)) (goStr "speedtest") 0 0).2
        (goStr "restart") 1000000000 1000000000)
      = (some { action := goStr "speedtest", remaining := 89 * second },
          (acquireCommandLock (newTestHandler (90 * second)) (goStr "speedtest") 0 0).2) := by
  refine ⟨le_refl _, ?_⟩
  have hc := acquireCommandLock_contract
    (acquireCommandLock (newTestHandler (90 * second)) (goStr "speedtest") 0 0).2
    (goStr "restart") 1000000000 1000000000 (le_refl _)
  rw [(hc.2.2 (by decide)).1]
  decide

/-- C2: whatever the lock state, `release` leaves the lock free (`busyAction`
empty, `busyUntil` the zero time), and an `acquireCommandLock` with any action
name at any later clock reading is admitted, whatever the `lockTimeout`. -/
theorem release_then_acquire_succeeds (h : Handler) (action : GoString)
    (now untilClock : Nat) :
    (release h).busyAction = []
    ∧ (release h).busyUntil = zeroTime
    ∧ (acquireCommandLock (release h) action now untilClock).1 = none := by
  refine ⟨rfl, rfl, ?_⟩
  have hfree : ¬ (now : Int) < (release h).busyUntil := by
    simp [release, zeroTime]
  rw [acquireCommandLock_of_not_before _ action now untilClock hfree]

/-- C3, as stated, fails: with a lock timeout of one millisecond, two calls
with distinct action names on a free lock, the second one millisecond after
the first and with no release in between, are both admitted. -/
theorem acquireCommandLock_both_admitted :
    (acquireCommandLock (newTestHandler millisecond) (goStr "speedtest") 5000000 5000000).1 = none
    ∧ (acquireCommandLock
        (acquireCommandLock (newTestHandler millisecond) (goStr "speedtest") 5000000 5000000).2
        (goStr "restart") 6000000 6000000).1 = none := by
  decide

/-- C3, amended: when two `acquireCommandLock` calls are serialised on a free
lock with no release in between, and the second reads the clock before the
first call's `now + lockTimeout`, the first is admitted, the second is
rejected without changing the lock, and the action name in its error is the
first caller's. -/
theorem acquireCommandLock_mutual_exclusion (h : Handler) (first second_ : GoString)
    (now1 until1 now2 until2 : Nat)
    (hfree : ¬ (now1 : Int) < h.busyUntil)
    (hwindow : (now2 : Int) < now1 + h.lockTimeout) :
    (acquireCommandLock h first now1 until1).1 = none
    ∧ (∃ err,
        (acquireCommandLock (acquireCommandLock h first now1 until1).2 second_ now2 until2).1
          = some err ∧ err.action = first)
    ∧ (acquireCommandLock (acquireCommandLock h first now1 until1).2 second_ now2 until2).2
        = (acquireCommandLock h first now1 until1).2 := by
  rw [acquireCommandLock_of_not_before h first now1 until1 hfree]
  have hbusy : (now2 : Int) <
      ({ h with busyAction := first, busyUntil := (now1 : Int) + h.lockTimeout } : Handler).busyUntil :=
    hwindow
  rw [acquireCommandLock_of_before _ second_ now2 until2 hbusy]
  exact ⟨rfl, ⟨_, rfl, rfl⟩, rfl⟩

/-- C3, amended, on the test's handler: `restart` asked one second after
`speedtest` took a free lock with a 90 s timeout. -/
theorem acquireCommandLock_mutual_exclusion_witness :
    (acquireCommandLock (newTestHandler (90 * second)) (goStr "speedtest") 0 0).1 = none
    ∧ (∃ err,
        (acquireCommandLock
            (acquireCommandLock (newTestHandler (90 * second)) (goStr "speedtest") 0 0).2
            (goStr "restart") 1000000000 1000000000).1 = some err
        ∧ err.action = goStr "speedtest")
    ∧ (acquireCommandLock
          (acquireCommandLock (newTestHandler (90 * second)) (goStr "speedtest") 0 0).2
          (goStr "restart") 1000000000 1000000000).2
        = (acquireCommandLock (newTestHandler (90 * second)) (goStr "speedtest") 0 0).2 :=
  acquireCommandLock_mutual_exclusion (newTestHandler (90 * second)) (goStr "speedtest")
    (goStr "restart") 0 0 1000000000 1000000000 (by decide) (by decide)

/-! ## At most one action body at a time -/

theorem singleFlight_step (s : Sys) (st : Step) (hinv : singleFlight s)
    (hwin : withinBusyWindow (step s st)) : singleFlight (step s st) := by
  refine ⟨?_, hwin⟩
  obtain ⟨hlen, hs⟩ := hinv
  cases st with
  | dispatch action =>
    by_cases hb : (s.now : Int) < s.h.busyUntil
    · simp only [step, acquireCommandLock_of_before s.h action s.now s.now hb]
      exact hlen
    · have hnil : s.running = [] := by
        rcases hs with hnil | hlt
        · exact hnil
        · exact absurd hlt hb
      simp [step, acquireCommandLock_of_not_before s.h action s.now s.now hb, hnil]
  | finish i =>
    by_cases hi : i < s.running.length
    · simp only [step, hi, if_true]
      exact le_trans (List.length_eraseIdx_le _ _) hlen
    · simp only [step, hi, if_false]
      exact hlen
  | advance d =>
    simpa [step] using hlen

theorem singleFlight_runSteps (steps : List Step) :
    ∀ s : Sys, singleFlight s → staysWithinBusyWindow s steps →
      singleFlight (runSteps s steps) := by
  induction steps with
  | nil => intro s hinv _; simpa [runSteps] using hinv
  | cons st rest ih =>
    intro s hinv hwin
    have hnext := singleFlight_step s st hinv hwin.1
    simpa [runSteps] using ih (step s st) hnext hwin.2

/-- C4, as stated, fails: `speedtest` is admitted with a 90 s timeout, the
clock advances 90 s while its body is still executing, and `restart_service`
is then admitted too, so two action bodies execute at once. -/
theorem two_bodies_after_busy_window :
    (runSteps (initSys (90 * second) 0)
      [.dispatch (goStr "speedtest"), .advance 90000000000,
       .dispatch (goStr "restart_service")]).running
      = [goStr "restart_service", goStr "speedtest"] := by
  decide

/-- C4, amended: from a free lock with no body executing, along every
sequence of acquire, release and time-advance steps in which no executing
body outlives the busy window (the clock stays before `busyUntil` while a body
executes), at most one action body is executing. -/
theorem at_most_one_body_within_busy_window (lockTimeout : Int) (now : Nat)
    (steps : List Step)
    (hwin : staysWithinBusyWindow (initSys lockTimeout now) steps) :
    (runSteps (initSys lockTimeout now) steps).running.length ≤ 1 := by
  have hinit : singleFlight (initSys lockTimeout now) :=
    ⟨by simp [initSys], Or.inl rfl⟩
  exact (singleFlight_runSteps steps _ hinit hwin).1

/-- C4, amended, on a run in which `restart_service` is refused while
`speedtest` executes and admitted once `speedtest` has finished. -/
theorem at_most_one_body_within_busy_window_witness :
    staysWithinBusyWindow (initSys (90 * second) 0)
      [.dispatch (goStr "speedtest"), .advance 1000000000,
       .dispatch (goStr "restart_service"), .finish 0,
       .dispatch (goStr "restart_service")]
    ∧ (runSteps (initSys (90 * second) 0)
      [.dispatch (goStr "speedtest"), .advance 1000000000,
       .dispatch (goStr "restart_service"), .finish 0,
       .dispatch (goStr "restart_service")]).running.length ≤ 1 :=
  ⟨by decide, at_most_one_body_within_busy_window (90 * second) 0 _ (by decide)⟩

/-! ## The action dispatcher: theorems -/

theorem handleCallbackCommand_admitted (h : Handler) (update : Update) (action : GoString)
    (run : ActionBody) (now untilClock : Nat) (callback : CallbackQuery) (message : Message)
    (hcb : update.CallbackQuery = some callback)
    (hty : callback.Message.Type_ = MaybeInaccessibleMessageType.Message)
    (hmsg : callback.Message.Message = some message)
    (hfree : ¬ (now : Int) < h.busyUntil) :
    handleCallbackCommand h update action run now untilClock =
      (release { h with busyAction := action, busyUntil := (now : Int) + h.lockTimeout },
        if (run message.Chat.ID message.ID update).failed then
          BotCall.AnswerCallbackQuery callback.ID false (.literal [])
            :: (run message.Chat.ID message.ID update).calls
              ++ sendHandlerError message.Chat.ID message.ID
        else
          BotCall.AnswerCallbackQuery callback.ID false (.literal [])
            :: (run message.Chat.ID message.ID update).calls) := by
  simp only [handleCallbackCommand, hcb, hty, hmsg,
    acquireCommandLock_of_not_before h action now untilClock hfree]
  by_cases hf : (run message.Chat.ID message.ID update).failed = true <;> simp [hf]

theorem handleCallbackCommand_rejected (h : Handler) (update : Update) (action : GoString)
    (run : ActionBody) (now untilClock : Nat) (callback : CallbackQuery) (message : Message)
    (hcb : update.CallbackQuery = some callback)
    (hty : callback.Message.Type_ = MaybeInaccessibleMessageType.Message)
    (hmsg : callback.Message.Message = some message)
    (hbusy : (now : Int) < h.busyUntil) :
    handleCallbackCommand h update action run now untilClock =
      (h, [BotCall.AnswerCallbackQuery callback.ID true
        (.busyNotice h.busyAction
          (roundDurationToSeconds (timeSub h.busyUntil untilClock)))]) := by
  simp [handleCallbackCommand, hcb, hty, hmsg,
    acquireCommandLock_of_before h action now untilClock hbusy, sendBusyMessage,
    busyMessageText]

theorem handleCallbackCommand_body_irrelevant (h : Handler) (update : Update)
    (action : GoString) (run run2 : ActionBody) (now untilClock : Nat)
    (hbusy : (now : Int) < h.busyUntil) :
    handleCallbackCommand h update action run2 now untilClock =
      handleCallbackCommand h update action run now untilClock := by
  unfold handleCallbackCommand
  rcases hcb : update.CallbackQuery with _ | callback
  · rfl
  · by_cases hty : callback.Message.Type_ = MaybeInaccessibleMessageType.Message
    · rcases hmsg : callback.Message.Message with _ | message
      · simp [hty, hmsg]
      · simp [hty, hmsg, acquireCommandLock_of_before h action now untilClock hbusy]
    · simp [hty]

theorem DefaultHandler_admitted (h : Handler) (update : Update) (now untilClock : Nat)
    (hfree : ¬ (now : Int) < h.busyUntil) :
    DefaultHandler h update now untilClock =
      (release { h with busyAction := goStr "main_menu",
                        busyUntil := (now : Int) + h.lockTimeout },
        match getMessageChatID update with
        | none => []
        | some chatID =>
          [BotCall.SendMessage chatID
            (.literal
              (goStr "👋 Choose an action:\n• apply config\n• check speed\n• restart Xray"))
            (some mainMenuKeyboard)]) := by
  simp only [DefaultHandler,
    acquireCommandLock_of_not_before h (goStr "main_menu") now untilClock hfree]
  cases getMessageChatID update <;> rfl

theorem DefaultHandler_rejected (h : Handler) (update : Update) (now untilClock : Nat)
    (hbusy : (now : Int) < h.busyUntil) :
    DefaultHandler h update now untilClock =
      (h, sendBusyMessage update
        { action := h.busyAction, remaining := timeSub h.busyUntil untilClock }) := by
  simp only [DefaultHandler,
    acquireCommandLock_of_before h (goStr "main_menu") now untilClock hbusy]

/-- C5: an invocation of `handleCallbackCommand` that the lock admitted (the
update passed the completeness guard and `acquireCommandLock` returned no
error) returns with the lock free, `busyAction` empty and `busyUntil` the zero
time, whatever the action body did and whether it returned an error or not;
so does an admitted invocation of `DefaultHandler`. -/
theorem dispatcher_returns_with_lock_free (h : Handler) (update : Update)
    (action : GoString) (run : ActionBody) (now untilClock : Nat) :
    (∀ (callback : CallbackQuery) (message : Message),
      update.CallbackQuery = some callback →
      callback.Message.Type_ = MaybeInaccessibleMessageType.Message →
      callback.Message.Message = some message →
      (acquireCommandLock h action now untilClock).1 = none →
        (handleCallbackCommand h update action run now untilClock).1.busyAction = []
        ∧ (handleCallbackCommand h update action run now untilClock).1.busyUntil = zeroTime)
    ∧ ((acquireCommandLock h (goStr "main_menu") now untilClock).1 = none →
        (DefaultHandler h update now untilClock).1.busyAction = []
        ∧ (DefaultHandler h update now untilClock).1.busyUntil = zeroTime) := by
  constructor
  · intro callback message hcb hty hmsg hadm
    have hfree : ¬ (now : Int) < h.busyUntil := by
      intro hb
      rw [acquireCommandLock_of_before h action now untilClock hb] at hadm
      exact absurd hadm (by simp)
    rw [handleCallbackCommand_admitted h update action run now untilClock callback message
      hcb hty hmsg hfree]
    exact ⟨rfl, rfl⟩
  · intro hadm
    have hfree : ¬ (now : Int) < h.busyUntil := by
      intro hb
      rw [acquireCommandLock_of_before h (goStr "main_menu") now untilClock hb] at hadm
      exact absurd hadm (by simp)
    rw [DefaultHandler_admitted h update now untilClock hfree]
    exact ⟨rfl, rfl⟩

/-- C5 on an admitted button press whose action body returns an error. -/
theorem dispatcher_returns_with_lock_free_witness :
    sampleCallbackUpdate.CallbackQuery = some sampleCallback
    ∧ (acquireCommandLock (newTestHandler (90 * second)) (goStr "restart_service") 5 5).1 = none
    ∧ (handleCallbackCommand (newTestHandler (90 * second)) sampleCallbackUpdate
        (goStr "restart_service") sampleFailingBody 5 5).1.busyAction = []
    ∧ (handleCallbackCommand (newTestHandler (90 * second)) sampleCallbackUpdate
        (goStr "restart_service") sampleFailingBody 5 5).1.busyUntil = zeroTime :=
  ⟨rfl, by decide,
    (dispatcher_returns_with_lock_free (newTestHandler (90 * second)) sampleCallbackUpdate
      (goStr "restart_service") sampleFailingBody 5 5).1 sampleCallback sampleMessage
      rfl rfl rfl (by decide)⟩

/-- C6: when the lock rejects a request, `handleCallbackCommand` does not
depend on the action body (the body is not run), leaves the handler state as
it was, and for a complete callback update its only transport call is the
busy notice, sent as an alert on the button press; for an update without a
callback query `sendBusyMessage` sends the notice as a new message to the
chat of the update's message. -/
theorem rejected_request_only_busy_notice (h : Handler) (update : Update)
    (action : GoString) (run : ActionBody) (now untilClock : Nat)
    (hbusy : (now : Int) < h.busyUntil) :
    (∀ run2 : ActionBody,
      handleCallbackCommand h update action run2 now untilClock =
        handleCallbackCommand h update action run now untilClock)
    ∧ (handleCallbackCommand h update action run now untilClock).1 = h
    ∧ (∀ (callback : CallbackQuery) (message : Message),
        update.CallbackQuery = some callback →
        callback.Message.Type_ = MaybeInaccessibleMessageType.Message →
        callback.Message.Message = some message →
          (handleCallbackCommand h update action run now untilClock).2 =
            [BotCall.AnswerCallbackQuery callback.ID true
              (.busyNotice h.busyAction
                (roundDurationToSeconds (timeSub h.busyUntil untilClock)))])
    ∧ (∀ (busyErr : commandBusyError) (message : Message),
        update.CallbackQuery = none → update.Message = some message →
          sendBusyMessage update busyErr =
            [BotCall.SendMessage message.Chat.ID
              (.busyNotice busyErr.action (roundDurationToSeconds busyErr.remaining)) none]) := by
  refine ⟨fun run2 => handleCallbackCommand_body_irrelevant h update action run run2 now
    untilClock hbusy, ?_, ?_, ?_⟩
  · unfold handleCallbackCommand
    rcases hcb : update.CallbackQuery with _ | callback
    · rfl
    · by_cases hty : callback.Message.Type_ = MaybeInaccessibleMessageType.Message
      · rcases hmsg : callback.Message.Message with _ | message
        · simp [hty, hmsg]
        · simp [hty, hmsg, acquireCommandLock_of_before h action now untilClock hbusy]
      · simp [hty]
  · intro callback message hcb hty hmsg
    rw [handleCallbackCommand_rejected h update action run now untilClock callback message
      hcb hty hmsg hbusy]
  · intro busyErr message hcb hmsg
    simp [sendBusyMessage, hcb, getMessageChatID, hmsg, busyMessageText]

/-- C6 on a button press made one second after `speedtest` took the lock for
90 s: the only call is the alert that `speedtest` is busy for 89 s. -/
theorem rejected_request_only_busy_notice_witness :
    ((1000000000 : Nat) : Int) < sampleBusyHandler.busyUntil
    ∧ handleCallbackCommand sampleBusyHandler sampleCallbackUpdate (goStr "restart_service")
        sampleFailingBody 1000000000 1000000000
      = (sampleBusyHandler,
          [BotCall.AnswerCallbackQuery (goStr "q1") true
            (.busyNotice (goStr "speedtest") (89 * second))]) := by
  refine ⟨by decide, ?_⟩
  have hc := rejected_request_only_busy_notice sampleBusyHandler sampleCallbackUpdate
    (goStr "restart_service") sampleFailingBody 1000000000 1000000000 (by decide)
  refine Prod.ext hc.2.1 ?_
  rw [hc.2.2.1 sampleCallback sampleMessage rfl rfl rfl]
  decide

/-- C7, as stated, fails: a callback update whose message is inaccessible gets
no message at all from `handleCallbackCommand`, and an update with neither a
message nor a callback query, handed to `DefaultHandler` on a free lock, gets
none either. -/
theorem dispatcher_without_terminal_message :
    (handleCallbackCommand (newTestHandler (90 * second))
        { Message := none,
          CallbackQuery := some
            { ID := goStr "q1",
              Message := { Type_ := MaybeInaccessibleMessageType.InaccessibleMessage,
                           Message := none },
              Data := goStr "restart" } }
        (goStr "restart_service") sampleMenuBody 5 5).2 = []
    ∧ (DefaultHandler (newTestHandler (90 * second)) sampleOtherUpdate 5 5).2 = [] := by
  decide

/-! ## The menu renderer: theorems -/

theorem goStr_dots_length : (goStr "...").length = 3 := by decide

theorem configRows_foldl (trimSpace : GoString → GoString) (entries : List DirEntry) :
    ∀ buttons : List (List InlineKeyboardButton),
      entries.foldl
        (fun buttons entry =>
          if entry.IsDir then buttons
          else if entry.Name = goStr "config.json" then buttons
          else buttons ++ [configRow trimSpace entry])
        buttons
      = buttons ++ (entries.filter isListedEntry).map (configRow trimSpace) := by
  induction entries with
  | nil => intro buttons; simp
  | cons entry rest ih =>
    intro buttons
    rw [List.foldl_cons, ih]
    by_cases hdir : entry.IsDir = true
    · simp [hdir, isListedEntry]
    · by_cases hname : entry.Name = goStr "config.json"
      · simp [hdir, hname, isListedEntry]
      · simp [hdir, hname, isListedEntry]

theorem buildConfigListKeyboard_eq (trimSpace : GoString → GoString)
    (entries : List DirEntry) :
    (buildConfigListKeyboard trimSpace entries).InlineKeyboard =
      backToMainMenuRow :: (entries.filter isListedEntry).map (configRow trimSpace) := by
  simp [buildConfigListKeyboard, configRows_foldl]

/-- C8, as stated, fails: with the active configuration path
`/etc/xray/active.json`, a listing that holds the file `active.json` yields an
option for `active.json`, the active configuration file's name. -/
theorem buildConfigListKeyboard_lists_active_name :
    activeConfigFileName (goStr "/etc/xray/active.json") = goStr "active.json"
    ∧ (buildConfigListKeyboard asciiTrimSpace
        [{ Name := goStr "active.json", IsDir := false }]).InlineKeyboard
      = [backToMainMenuRow,
         [{ Text := goStr "active.json", CallbackData := goStr "cp_active.json" }]] := by
  decide

/-- C8, amended: for every directory listing, the option list built by
`buildConfigListKeyboard` is the back row followed, in listing order, by one
row for each entry that is not a directory and is not named `config.json`; so
every other row comes from such an entry, and no option carries the token of
`config.json`.  The configured active configuration path is not consulted. -/
theorem buildConfigListKeyboard_exclusions (trimSpace : GoString → GoString)
    (entries : List DirEntry) :
    (buildConfigListKeyboard trimSpace entries).InlineKeyboard =
      backToMainMenuRow :: (entries.filter isListedEntry).map (configRow trimSpace)
    ∧ (∀ row ∈ (buildConfigListKeyboard trimSpace entries).InlineKeyboard,
        row = backToMainMenuRow ∨
        ∃ entry ∈ entries, entry.IsDir = false ∧ entry.Name ≠ goStr "config.json"
          ∧ row = configRow trimSpace entry)
    ∧ (∀ row ∈ (buildConfigListKeyboard trimSpace entries).InlineKeyboard,
        ∀ button ∈ row,
          button.CallbackData ≠ makeCopyFileCallbackData (goStr "config.json")) := by
  have hrows : ∀ row ∈ (buildConfigListKeyboard trimSpace entries).InlineKeyboard,
      row = backToMainMenuRow ∨
      ∃ entry ∈ entries, entry.IsDir = false ∧ entry.Name ≠ goStr "config.json"
        ∧ row = configRow trimSpace entry := by
    intro row hrow
    rw [buildConfigListKeyboard_eq] at hrow
    rcases List.mem_cons.mp hrow with hback | hmem
    · exact Or.inl hback
    · right
      obtain ⟨entry, hentry, rfl⟩ := List.mem_map.mp hmem
      obtain ⟨hin, hkeep⟩ := List.mem_filter.mp hentry
      simp only [isListedEntry, Bool.and_eq_true, Bool.not_eq_true', decide_eq_true_eq]
        at hkeep
      exact ⟨entry, hin, hkeep.1, hkeep.2, rfl⟩
  refine ⟨buildConfigListKeyboard_eq trimSpace entries, hrows, ?_⟩
  intro row hrow button hbutton
  rcases hrows row hrow with hback | ⟨entry, _, _, hname, hrowEq⟩
  · subst hback
    simp only [backToMainMenuRow, List.mem_singleton] at hbutton
    subst hbutton
    decide
  · subst hrowEq
    simp only [configRow, List.mem_singleton] at hbutton
    subst hbutton
    intro heq
    exact hname (List.append_cancel_left heq)

theorem stringsTrimPrefix_append (pre s : GoString) :
    stringsTrimPrefix (pre ++ s) pre = s := by
  have hpre : stringsHasPrefix (pre ++ s) pre = true := by
    simp [stringsHasPrefix]
  simp [stringsTrimPrefix, hpre]

/-- C9: for every file name, of any length and whatever its first bytes,
`makeCopyFileCallbackData` returns `cp_` followed by the whole name (`cfg.json`
gives `cp_cfg.json`), and stripping the `cp_` prefix as the copy handler does
yields the original name. -/
theorem copy_token_round_trip (fileName : GoString) :
    makeCopyFileCallbackData fileName = goStr "cp_" ++ fileName
    ∧ copyConfigFileName (makeCopyFileCallbackData fileName) = fileName
    ∧ makeCopyFileCallbackData (goStr "cfg.json") = goStr "cp_cfg.json"
    ∧ copyConfigFileName (makeCopyFileCallbackData (goStr "cp_cp_a.json"))
        = goStr "cp_cp_a.json" := by
  refine ⟨rfl, ?_, by decide, by decide⟩
  exact stringsTrimPrefix_append (goStr "cp_") fileName

/-- C10: when the trimmed file name is longer than 24 bytes, `shortenFileName`
returns its first 12 bytes, then `...`, then its last 9 bytes, a label of 24
bytes, shorter than the trimmed name and (trimming never lengthens a string)
than the name; otherwise it returns the trimmed name unchanged. -/
theorem shortenFileName_label (trimSpace : GoString → GoString) (fileName : GoString) :
    (24 < (trimSpace fileName).length →
      shortenFileName trimSpace fileName =
        (trimSpace fileName).take 12 ++ goStr "..."
          ++ (trimSpace fileName).drop ((trimSpace fileName).length - 9)
      ∧ ((trimSpace fileName).take 12).length = 12
      ∧ ((trimSpace fileName).drop ((trimSpace fileName).length - 9)).length = 9
      ∧ (shortenFileName trimSpace fileName).length = 24
      ∧ (shortenFileName trimSpace fileName).length < (trimSpace fileName).length
      ∧ ((trimSpace fileName).length ≤ fileName.length →
          (shortenFileName trimSpace fileName).length < fileName.length))
    ∧ (¬ 24 < (trimSpace fileName).length →
      shortenFileName trimSpace fileName = trimSpace fileName) := by
  constructor
  · intro hlong
    have hnot : ¬ (trimSpace fileName).length ≤ 24 := by omega
    have heq : shortenFileName trimSpace fileName =
        (trimSpace fileName).take 12 ++ goStr "..."
          ++ (trimSpace fileName).drop ((trimSpace fileName).length - 9) := by
      simp [shortenFileName, hnot]
    have htake : ((trimSpace fileName).take 12).length = 12 := by
      rw [List.length_take]; omega
    have hdrop : ((trimSpace fileName).drop ((trimSpace fileName).length - 9)).length = 9 := by
      rw [List.length_drop]; omega
    have hlen : (shortenFileName trimSpace fileName).length = 24 := by
      rw [heq, List.length_append, List.length_append, htake, hdrop, goStr_dots_length]
    refine ⟨heq, htake, hdrop, hlen, ?_, ?_⟩
    · omega
    · intro htrim; omega
  · intro hshort
    have hle : (trimSpace fileName).length ≤ 24 := by omega
    simp [shortenFileName, hle]

theorem asciiTrimSpace_length_le (s : GoString) : (asciiTrimSpace s).length ≤ s.length := by
  unfold asciiTrimSpace
  rw [List.length_reverse]
  refine le_trans (List.dropWhile_sublist _).length_le ?_
  rw [List.length_reverse]
  exact (List.dropWhile_sublist _).length_le

/-- C10 on the name the test shortens, `very-very-long-config-file-name.json`
(36 bytes): the label is `very-very-lo...name.json`. -/
theorem shortenFileName_label_witness :
    24 < (asciiTrimSpace (goStr "very-very-long-config-file-name.json")).length
    ∧ shortenFileName asciiTrimSpace (goStr "very-very-long-config-file-name.json")
        = goStr "very-very-lo...name.json"
    ∧ (shortenFileName asciiTrimSpace (goStr "very-very-long-config-file-name.json")).length
        < (goStr "very-very-long-config-file-name.json").length := by
  have hc := (shortenFileName_label asciiTrimSpace
    (goStr "very-very-long-config-file-name.json")).1 (by decide)
  refine ⟨by decide, ?_, hc.2.2.2.2.2 (asciiTrimSpace_length_le _)⟩
  rw [hc.1]
  decide

/-! ## Rounding a duration: theorems -/

theorem lessThanHalf_of_small (r : Int) (h0 : 0 ≤ r) (h1 : r < second) :
    lessThanHalf r second = decide (r + r < second) := by
  unfold lessThanHalf
  unfold second at h1 ⊢
  have h2 : r % 2 ^ 64 = r := by omega
  have h3 : (1000000000 : Int) % 2 ^ 64 = 1000000000 := by decide
  rw [h2, h3]
  have h4 : (r + r) % 2 ^ 64 = r + r := by omega
  rw [h4]

theorem roundDurationToSeconds_of_nonneg (d : Int) (h0 : 0 ≤ d) (h1 : d ≤ maxDuration) :
    roundDurationToSeconds d =
      if d < 9223372036500000000 then (d + 500000000) / second * second
      else maxDuration := by
  have hneg : ¬ d < 0 := by omega
  have hm : ¬ second ≤ 0 := by decide
  have hmod : Int.tmod d second = d % second := Int.tmod_eq_emod h0 (by decide)
  have hr0 : 0 ≤ d % second := Int.emod_nonneg d (by decide)
  have hr1 : d % second < second := Int.emod_lt_of_pos d (by decide)
  simp only [roundDurationToSeconds, durationRound, hneg, hm, if_false, hmod,
    lessThanHalf_of_small (d % second) hr0 hr1, decide_eq_true_eq]
  unfold maxDuration at h1 ⊢
  unfold wrapInt64
  unfold second at hr0 hr1 ⊢
  by_cases hhalf : d % 1000000000 + d % 1000000000 < 1000000000
  · rw [if_pos hhalf]
    have hlt : d < 9223372036500000000 := by omega
    rw [if_pos hlt]
    omega
  · rw [if_neg hhalf]
    by_cases hlt : d < 9223372036500000000
    · rw [if_pos hlt]
      have hw : (d + 1000000000 - d % 1000000000 + 2 ^ 63) % 2 ^ 64 - 2 ^ 63
          = d + 1000000000 - d % 1000000000 := by omega
      rw [hw]
      have hgt : d + 1000000000 - d % 1000000000 > d := by omega
      rw [if_pos hgt]
      omega
    · rw [if_neg hlt]
      have hw : (d + 1000000000 - d % 1000000000 + 2 ^ 63) % 2 ^ 64 - 2 ^ 63
          = d + 1000000000 - d % 1000000000 - 2 ^ 64 := by omega
      rw [hw]
      have hgt : ¬ d + 1000000000 - d % 1000000000 - 2 ^ 64 > d := by omega
      rw [if_neg hgt]

/-- C14, as stated, fails: the largest `Duration` is returned unchanged, and
it is neither a whole number of seconds nor the nearest whole second
(9223372037 s, which no `Duration` holds). -/
theorem roundDurationToSeconds_saturates :
    roundDurationToSeconds maxDuration = maxDuration
    ∧ maxDuration % second = 854775807
    ∧ roundDurationToSeconds 9223372036500000000 = maxDuration := by
  decide

/-- C14, amended: for every `Duration` `d` (a signed 64-bit count of
nanoseconds), `roundDurationToSeconds` returns 0 when `d` is negative; when
`0 ≤ d < 9223372036.5 s` it returns `d` rounded to the nearest whole second,
halves rounded up (1500 ms gives 2 s), a whole number of seconds at most half
a second from `d`; from 9223372036.5 s on, where the rounded value does not
fit, it returns the largest `Duration`.  The result is never negative. -/
theorem roundDurationToSeconds_rounds (d : Int) (hhi : d ≤ maxDuration) :
    (d < 0 → roundDurationToSeconds d = 0)
    ∧ (0 ≤ d → d < 9223372036500000000 →
        roundDurationToSeconds d = (d + 500000000) / second * second
        ∧ roundDurationToSeconds d % second = 0
        ∧ d - 500000000 < roundDurationToSeconds d
        ∧ roundDurationToSeconds d ≤ d + 500000000)
    ∧ (9223372036500000000 ≤ d → roundDurationToSeconds d = maxDuration)
    ∧ 0 ≤ roundDurationToSeconds d
    ∧ roundDurationToSeconds (1500 * millisecond) = 2 * second := by
  refine ⟨?_, ?_, ?_, ?_, by decide⟩
  · intro hneg
    simp [roundDurationToSeconds, hneg]
  · intro h0 hlt
    rw [roundDurationToSeconds_of_nonneg d h0 hhi, if_pos hlt]
    unfold second
    refine ⟨rfl, ?_, ?_, ?_⟩ <;> omega
  · intro hge
    have hnot : ¬ d < 9223372036500000000 := by omega
    rw [roundDurationToSeconds_of_nonneg d (by omega) hhi, if_neg hnot]
  · by_cases hneg : d < 0
    · simp [roundDurationToSeconds, hneg]
    · rw [roundDurationToSeconds_of_nonneg d (by omega) hhi]
      unfold maxDuration second
      split_ifs <;> omega

/-- C14, amended, on the remaining time of the busy notice in the example of
the specification, 89 s. -/
theorem roundDurationToSeconds_rounds_witness :
    89 * second ≤ maxDuration
    ∧ roundDurationToSeconds (89 * second) = (89 * second + 500000000) / second * second :=
  ⟨by decide,
    ((roundDurationToSeconds_rounds (89 * second) (by decide)).2.1
      (by decide) (by decide)).1⟩

/-! ## Start-up configuration: theorems -/

/-- C15: in console or service mode `finalizeConfigByRunMode` returns the
configuration with each empty `XrayConfigsDir`, `XrayConfigPath` and
`ServiceName` replaced by the mode's default and every other field, and every
non-empty one of the three, unchanged; in any other mode it returns an
error. -/
theorem finalizeConfigByRunMode_defaults (cfg : Config) :
    (cfg.RunMode = goStr "console" →
      finalizeConfigByRunMode cfg = .ok
        { cfg with
          XrayConfigsDir :=
            if cfg.XrayConfigsDir = [] then goStr "./xray-configs" else cfg.XrayConfigsDir
          XrayConfigPath :=
            if cfg.XrayConfigPath = [] then goStr "./xray-configs/config.json"
            else cfg.XrayConfigPath
          ServiceName := if cfg.ServiceName = [] then goStr "xray" else cfg.ServiceName })
    ∧ (cfg.RunMode = goStr "service" →
      finalizeConfigByRunMode cfg = .ok
        { cfg with
          XrayConfigsDir :=
            if cfg.XrayConfigsDir = [] then goStr "/usr/local/etc/xray" else cfg.XrayConfigsDir
          XrayConfigPath :=
            if cfg.XrayConfigPath = [] then goStr "/etc/xray/config.json"
            else cfg.XrayConfigPath
          ServiceName := if cfg.ServiceName = [] then goStr "xray" else cfg.ServiceName })
    ∧ (cfg.RunMode ≠ goStr "console" → cfg.RunMode ≠ goStr "service" →
      finalizeConfigByRunMode cfg = .error (goStr "unsupported run mode: " ++ cfg.RunMode)) := by
  refine ⟨?_, ?_, ?_⟩
  · intro hmode
    have hrun : cfg.RunMode = runModeConsole := hmode
    unfold finalizeConfigByRunMode
    rw [if_pos hrun]
    obtain ⟨mode, path, token, dir, active, service, timeout, level⟩ := cfg
    by_cases h1 : dir = [] <;> by_cases h2 : active = [] <;>
      by_cases h3 : service = [] <;> simp [finalizeConsoleConfig, h1, h2, h3]
  · intro hmode
    have hrun : cfg.RunMode = runModeService := hmode
    have hne : ¬ cfg.RunMode = runModeConsole := by
      rw [hrun]; decide
    unfold finalizeConfigByRunMode
    rw [if_neg hne, if_pos hrun]
    obtain ⟨mode, path, token, dir, active, service, timeout, level⟩ := cfg
    by_cases h1 : dir = [] <;> by_cases h2 : active = [] <;>
      by_cases h3 : service = [] <;> simp [finalizeServiceConfig, h1, h2, h3]
  · intro hc hs
    have hc2 : ¬ cfg.RunMode = runModeConsole := hc
    have hs2 : ¬ cfg.RunMode = runModeService := hs
    simp [finalizeConfigByRunMode, hc2, hs2]

/-- C15 on a service-mode configuration that sets everything but the service
name: only the service name is filled in. -/
theorem finalizeConfigByRunMode_defaults_witness :
    sampleServiceConfig.RunMode = goStr "service"
    ∧ finalizeConfigByRunMode sampleServiceConfig
        = .ok { sampleServiceConfig with ServiceName := goStr "xray" } := by
  refine ⟨rfl, ?_⟩
  rw [(finalizeConfigByRunMode_defaults sampleServiceConfig).2.1 rfl]
  rfl

theorem not_hasPrefix_terminator (name : GoString) :
    stringsHasPrefix (goStr "--") (name ++ goStr "=") = false := by
  have hdash : goStr "--" = [45, 45] := by decide
  have heq : goStr "=" = [61] := by decide
  rw [hdash, heq]
  unfold stringsHasPrefix
  match name with
  | [] => decide
  | [a] =>
    simp only [List.singleton_append, List.isPrefixOf, Bool.and_eq_false_imp]
    intro _
    decide
  | a :: b :: rest =>
    cases rest <;> simp [List.isPrefixOf]

theorem namesFlag_terminator (short long : GoString) (hs : short ≠ goStr "--")
    (hl : long ≠ goStr "--") : namesFlag (goStr "--") short long = false := by
  have h1 : ¬ goStr "--" = short := fun h => hs h.symm
  have h2 : ¬ goStr "--" = long := fun h => hl h.symm
  simp [namesFlag, h1, h2, not_hasPrefix_terminator]

theorem hasFlagArg_cons (arg : GoString) (rest : List GoString) (short long : GoString) :
    hasFlagArg (arg :: rest) short long =
      (namesFlag arg short long
        || (decide (arg ≠ goStr "--") && hasFlagArg rest short long)) := by
  by_cases h1 : arg = short
  · simp [hasFlagArg, namesFlag, h1]
  · by_cases h2 : arg = long
    · simp [hasFlagArg, namesFlag, h2]
    · by_cases h3 : stringsHasPrefix arg (short ++ goStr "=") = true
      · simp [hasFlagArg, namesFlag, h3]
      · by_cases h4 : stringsHasPrefix arg (long ++ goStr "=") = true
        · simp [hasFlagArg, namesFlag, h4]
        · by_cases h5 : arg = goStr "--"
          · simp [hasFlagArg, namesFlag, h5, Bool.or_assoc]
          · simp [hasFlagArg, namesFlag, h1, h2, h3, h4, h5]

/-- C16: when neither flag name is `--`, `hasFlagArg` returns true exactly
when some argument before the first `--` terminator is the short or the long
name, or starts with the short or the long name followed by `=`; it returns
false for the empty list. -/
theorem hasFlagArg_iff (args : List GoString) (short long : GoString)
    (hs : short ≠ goStr "--") (hl : long ≠ goStr "--") :
    (hasFlagArg args short long = true ↔
      ∃ arg ∈ args.takeWhile (fun arg => decide (arg ≠ goStr "--")),
        arg = short ∨ arg = long
        ∨ stringsHasPrefix arg (short ++ goStr "=") = true
        ∨ stringsHasPrefix arg (long ++ goStr "=") = true)
    ∧ hasFlagArg [] short long = false := by
  refine ⟨?_, rfl⟩
  induction args with
  | nil => simp [hasFlagArg]
  | cons arg rest ih =>
    rw [hasFlagArg_cons, List.takeWhile_cons]
    by_cases hterm : arg = goStr "--"
    · subst hterm
      simp [namesFlag_terminator short long hs hl]
    · have hnames : namesFlag arg short long = true ↔
          (arg = short ∨ arg = long
            ∨ stringsHasPrefix arg (short ++ goStr "=") = true
            ∨ stringsHasPrefix arg (long ++ goStr "=") = true) := by
        simp [namesFlag, or_assoc]
      simp only [hterm, ne_eq, not_false_eq_true, decide_True, Bool.true_and, if_true,
        Bool.or_eq_true, List.mem_cons, exists_eq_or_imp, hnames, ih]

/-- C16 on the arguments of the test: `--config=/tmp/config.json` names the
flag `--config`. -/
theorem hasFlagArg_iff_witness :
    goStr "-c" ≠ goStr "--" ∧ goStr "--config" ≠ goStr "--"
    ∧ hasFlagArg [goStr "--token=abc", goStr "--config=/tmp/config.json"]
        (goStr "-c") (goStr "--config") = true :=
  ⟨by decide, by decide,
    ((hasFlagArg_iff [goStr "--token=abc", goStr "--config=/tmp/config.json"]
      (goStr "-c") (goStr "--config") (by decide) (by decide)).1).2
      ⟨goStr "--config=/tmp/config.json", by decide, by decide⟩⟩

/-! ## The network prober: theorems -/

theorem getD_mem_cons (server : Server) (rest : List Server) (i : Nat) :
    (server :: rest).getD i server ∈ server :: rest := by
  rw [List.getD_eq_getElem?_getD]
  cases hget : (server :: rest)[i]? with
  | none => simp
  | some found => simpa using List.getElem?_mem hget

theorem error_text_ne (pre err : GoString) (c : UInt8) (hhead : pre.head? = some c)
    (hc : c ≠ 110) :
    (Except.error (pre ++ err) : Except GoString speedTestResult)
      ≠ .error (goStr "no speedtest server available") := by
  intro h
  have htext : pre ++ err = goStr "no speedtest server available" := Except.error.inj h
  have hh := congrArg List.head? htext
  cases pre with
  | nil => simp at hhead
  | cons b bs =>
    simp only [List.cons_append, List.head?_cons, Option.some.injEq] at hh hhead
    have h110 : (goStr "no speedtest server available").head? = some 110 := by decide
    rw [hhead, h110] at hh
    exact hc (Option.some.inj hh)

/-- C13, as stated, fails: when the server-list request succeeds and yields
no server, `runSpeedTest` fails, without a probe step, with the error of
`FetchServers`, `fetch speedtest servers: no server available or found`,
which is not the error `no speedtest server available`. -/
theorem runSpeedTest_empty_discovery_error :
    runSpeedTest (speedtestGoClient (.ok []) (fun _ => 0))
      = (.error (goStr "fetch speedtest servers: no server available or found"), [])
    ∧ goStr "fetch speedtest servers: no server available or found"
      ≠ goStr "no speedtest server available" :=
  ⟨rfl, by decide⟩

/-- C13, amended: with the `speedtest-go` client, a run of `runSpeedTest` in
which discovery yields no target fails with the error of `FetchServers`,
`fetch speedtest servers: no server available or found`, and starts no probe
step; a probe step starts only when the request returned at least one server;
a discovery that succeeds returns one target, a server of the list; and no
run returns the error `no speedtest server available`. -/
theorem runSpeedTest_empty_discovery (discovery : Except GoString (List Server))
    (lowestLatencyIndex : List Server → Nat) :
    (discovery = .ok [] →
      runSpeedTest (speedtestGoClient discovery lowestLatencyIndex)
        = (.error (goStr "fetch speedtest servers: no server available or found"), []))
    ∧ ((runSpeedTest (speedtestGoClient discovery lowestLatencyIndex)).2 ≠ [] →
        ∃ server servers, discovery = .ok (server :: servers))
    ∧ (∀ servers,
        (speedtestGoClient discovery lowestLatencyIndex).FetchServers = .ok servers →
        ∃ target ∈ servers,
          (speedtestGoClient discovery lowestLatencyIndex).FindServer servers = .ok [target])
    ∧ (runSpeedTest (speedtestGoClient discovery lowestLatencyIndex)).1
        ≠ .error (goStr "no speedtest server available") := by
  refine ⟨?_, ?_, ?_, ?_⟩
  · intro hempty
    subst hempty
    rfl
  · intro hsteps
    match discovery, hsteps with
    | .error _, h => exact absurd rfl h
    | .ok [], h => exact absurd rfl h
    | .ok (server :: servers), _ => exact ⟨server, servers, rfl⟩
  · intro servers hfetch
    match discovery, hfetch with
    | .error _, h => simp [speedtestGoClient] at h
    | .ok [], h => simp [speedtestGoClient] at h
    | .ok (server :: rest), h =>
      simp only [speedtestGoClient, Except.ok.injEq] at h
      subst h
      exact ⟨_, getD_mem_cons server rest _, rfl⟩
  · match discovery with
    | .error err =>
      exact error_text_ne (goStr "fetch speedtest servers: ") err 102 rfl (by decide)
    | .ok [] =>
      exact error_text_ne (goStr "fetch speedtest servers: ") errServerNotFound 102 rfl
        (by decide)
    | .ok (server :: rest) =>
      simp only [runSpeedTest, speedtestGoClient]
      generalize (server :: rest).getD (lowestLatencyIndex (server :: rest)) server = target
      cases hping : target.PingTestContext with
      | some err =>
        simpa using error_text_ne (goStr "ping test failed: ") err 112 rfl (by decide)
      | none =>
        cases hdown : target.DownloadTestContext with
        | some err =>
          simpa using error_text_ne (goStr "download test failed: ") err 100 rfl (by decide)
        | none =>
          cases hup : target.UploadTestContext with
          | some err =>
            simpa using error_text_ne (goStr "upload test failed: ") err 117 rfl (by decide)
          | none => simp

/-- C13, amended, on a request that succeeds and yields no server; a request
that yields one server is probed in the three steps. -/
theorem runSpeedTest_empty_discovery_witness :
    (Except.ok [] : Except GoString (List Server)) = .ok []
    ∧ (runSpeedTest (speedtestGoClient (.ok []) (fun _ => 0))).2 = []
    ∧ (runSpeedTest (speedtestGoClient (.ok [sampleServer]) (fun _ => 0))).2
        = [.ping sampleServer.Host, .download sampleServer.Host, .upload sampleServer.Host] :=
  ⟨rfl, by rw [(runSpeedTest_empty_discovery (.ok []) (fun _ => 0)).1 rfl], rfl⟩

/-! ## The file replacer: theorems -/

theorem fsSet_same (fs : FileSystem) (path : GoString) (node : Option FsNode) :
    fsSet fs path node path = node := by
  simp [fsSet]

theorem fsSet_other (fs : FileSystem) (path p : GoString) (node : Option FsNode)
    (hne : p ≠ path) : fsSet fs path node p = fs p := by
  simp [fsSet, hne]

/-- With every path its own location, `copyConfigFileAt` is
`copyConfigFile`. -/
theorem copyConfigFileAt_id (faults : IoFaults) (fs : FileSystem)
    (sourcePath destinationPath : GoString) :
    copyConfigFileAt id faults fs sourcePath destinationPath
      = copyConfigFile faults fs sourcePath destinationPath := rfl

/-- When the source and the temporary path name different locations, a
successful copy leaves at the destination the content the source had when the
call started. -/
theorem copyConfigFileAt_destination_content (locate : GoString → GoString)
    (faults : IoFaults) (fs : FileSystem)
    (sourcePath destinationPath : GoString) (content : List UInt8)
    (hsource : fs (locate sourcePath) = some (.file content))
    (hdistinct : locate sourcePath ≠ locate (destinationPath ++ goStr ".tmp"))
    (hok : (copyConfigFileAt locate faults fs sourcePath destinationPath).1 = none) :
    (copyConfigFileAt locate faults fs sourcePath destinationPath).2 (locate destinationPath)
      = some (.file content) := by
  obtain ⟨statF, openF, createF, copyF, closeF, renameF⟩ := faults
  by_cases hself : locate destinationPath = locate (destinationPath ++ goStr ".tmp") <;>
    by_cases hd1 : fs (locate (destinationPath ++ goStr ".tmp")) = some .dir <;>
    by_cases hd2 : fs (locate destinationPath) = some .dir <;>
    cases statF <;> cases openF <;> cases createF <;> cases copyF <;> cases closeF <;>
    cases renameF <;>
    simp [copyConfigFileAt, hsource, fsRead, fsSet, hdistinct, hself, hd1, hd2] at hok ⊢

/-- When the source and the temporary path name different locations, the
copy leaves the source naming what it named, whether the call succeeds or
fails. -/
theorem copyConfigFileAt_source_unchanged (locate : GoString → GoString)
    (faults : IoFaults) (fs : FileSystem) (sourcePath destinationPath : GoString)
    (hdistinct : locate sourcePath ≠ locate (destinationPath ++ goStr ".tmp")) :
    (copyConfigFileAt locate faults fs sourcePath destinationPath).2 (locate sourcePath)
      = fs (locate sourcePath) := by
  obtain ⟨statF, openF, createF, copyF, closeF, renameF⟩ := faults
  rcases hsource : fs (locate sourcePath) with _ | node
  · cases statF <;> simp [copyConfigFileAt, hsource]
  · cases node with
    | dir => cases statF <;> simp [copyConfigFileAt, hsource]
    | file content =>
      by_cases hsame : locate sourcePath = locate destinationPath
      · have hself : locate destinationPath ≠ locate (destinationPath ++ goStr ".tmp") := by
          rw [← hsame]; exact hdistinct
        have hdst : fs (locate destinationPath) = some (.file content) := by
          rw [← hsame]; exact hsource
        by_cases hd1 : fs (locate (destinationPath ++ goStr ".tmp")) = some .dir <;>
          cases statF <;> cases openF <;> cases createF <;> cases copyF <;> cases closeF <;>
          cases renameF <;>
          simp [copyConfigFileAt, hdst, fsRead, fsSet, hself, hd1, hsame]
      · by_cases hself : locate destinationPath = locate (destinationPath ++ goStr ".tmp") <;>
          by_cases hd1 : fs (locate (destinationPath ++ goStr ".tmp")) = some .dir <;>
          by_cases hd2 : fs (locate destinationPath) = some .dir <;>
          cases statF <;> cases openF <;> cases createF <;> cases copyF <;> cases closeF <;>
          cases renameF <;>
          simp [copyConfigFileAt, hsource, fsRead, fsSet, hdistinct, hself, hd1, hd2, hsame]

/-- The collision under another spelling: in the default console
configuration the handler's source path `xray-configs/config.json.tmp` and the
temporary path `./xray-configs/config.json.tmp` name one file, and the copy
returns nil, leaves the destination empty and the source naming nothing. -/
theorem copyConfigFileAt_alias_collision :
    (copyConfigFileAt filepathClean noFaults sampleConsoleFs
        (goStr "xray-configs/config.json.tmp") (goStr "./xray-configs/config.json")).1 = none
    ∧ (copyConfigFileAt filepathClean noFaults sampleConsoleFs
        (goStr "xray-configs/config.json.tmp") (goStr "./xray-configs/config.json")).2
          (goStr "xray-configs/config.json") = some (.file [])
    ∧ (copyConfigFileAt filepathClean noFaults sampleConsoleFs
        (goStr "xray-configs/config.json.tmp") (goStr "./xray-configs/config.json")).2
          (goStr "xray-configs/config.json.tmp") = none := by
  decide

/-- C11 fails on the code: with the active file `/etc/xray/config.json`,
copying the candidate `/etc/xray/config.json.tmp` (content `asia`) returns
nil and leaves the destination empty, because the temporary path is the
source path and `os.Create` truncates it before the copy. -/
theorem copyConfigFile_collision_empties_destination :
    sampleFs (goStr "/etc/xray/config.json.tmp") = some (.file (goStr "asia"))
    ∧ (copyConfigFile noFaults sampleFs (goStr "/etc/xray/config.json.tmp")
        (goStr "/etc/xray/config.json")).1 = none
    ∧ (copyConfigFile noFaults sampleFs (goStr "/etc/xray/config.json.tmp")
        (goStr "/etc/xray/config.json")).2 (goStr "/etc/xray/config.json")
      = some (.file []) := by
  decide

/-- C12 fails on the code: with the active file `/etc/xray/config.json`,
a successful copy of the candidate `/etc/xray/config.json.tmp` leaves the
source path naming nothing (the truncated source was renamed over the
destination), and a copy that fails at the close of the temporary file leaves
the source empty. -/
theorem copyConfigFile_collision_destroys_source :
    (copyConfigFile noFaults sampleFs (goStr "/etc/xray/config.json.tmp")
        (goStr "/etc/xray/config.json")).1 = none
    ∧ (copyConfigFile noFaults sampleFs (goStr "/etc/xray/config.json.tmp")
        (goStr "/etc/xray/config.json")).2 (goStr "/etc/xray/config.json.tmp") = none
    ∧ (copyConfigFile { noFaults with closeFails := true } sampleFs
        (goStr "/etc/xray/config.json.tmp") (goStr "/etc/xray/config.json")).1
        = some .closeTempFile
    ∧ (copyConfigFile { noFaults with closeFails := true } sampleFs
        (goStr "/etc/xray/config.json.tmp") (goStr "/etc/xray/config.json")).2
          (goStr "/etc/xray/config.json.tmp")
        = some (.file []) := by
  decide

/-! ## Paths: theorems -/

theorem splitSlash_ne_nil (path : GoString) : splitSlash path ≠ [] := by
  cases path with
  | nil => simp [splitSlash]
  | cons c rest =>
    by_cases hc : c = slash
    · simp [splitSlash, hc]
    · cases hrest : splitSlash rest <;> simp [splitSlash, hc, hrest]

theorem splitSlash_append_slash (a b : GoString) :
    splitSlash (a ++ slash :: b) = splitSlash a ++ splitSlash b := by
  induction a with
  | nil => simp [splitSlash]
  | cons c a ih =>
    by_cases hc : c = slash
    · simp [splitSlash, hc, ih]
    · obtain ⟨elem, elems, hsplit⟩ := List.exists_cons_of_ne_nil (splitSlash_ne_nil a)
      simp [splitSlash, hc, ih, hsplit]

theorem splitSlash_of_no_slash (name : GoString) (hname : slash ∉ name) :
    splitSlash name = [name] := by
  induction name with
  | nil => rfl
  | cons c rest ih =>
    have hc : c ≠ slash := fun h => hname (by simp [h])
    have hrest : slash ∉ rest := fun h => hname (List.mem_cons_of_mem _ h)
    simp [splitSlash, hc, ih hrest]

theorem no_slash_of_mem_splitSlash (path : GoString) :
    ∀ elem ∈ splitSlash path, slash ∉ elem := by
  induction path with
  | nil => intro elem helem; simp [splitSlash] at helem; simp [helem]
  | cons c rest ih =>
    intro elem helem
    by_cases hc : c = slash
    · simp only [splitSlash, hc, if_true, List.mem_cons] at helem
      rcases helem with hnil | hmem
      · simp [hnil]
      · exact ih elem hmem
    · obtain ⟨first, others, hsplit⟩ := List.exists_cons_of_ne_nil (splitSlash_ne_nil rest)
      simp only [splitSlash, hc, if_false, hsplit, List.mem_cons] at helem
      rcases helem with hhead | hmem
      · subst hhead
        have hfirst := ih first (by simp [hsplit])
        intro hin
        rcases List.mem_cons.mp hin with h1 | h2
        · exact hc h1.symm
        · exact hfirst h2
      · exact ih elem (by simp [hsplit, hmem])

theorem splitSlash_joinSlash (elems : List GoString) (hne : elems ≠ [])
    (hno : ∀ elem ∈ elems, slash ∉ elem) : splitSlash (joinSlash elems) = elems := by
  induction elems with
  | nil => exact absurd rfl hne
  | cons elem rest ih =>
    cases rest with
    | nil => simpa [joinSlash] using splitSlash_of_no_slash elem (hno elem (by simp))
    | cons next others =>
      have hrest := ih (by simp) (fun e he => hno e (List.mem_cons_of_mem _ he))
      simp only [joinSlash]
      rw [splitSlash_append_slash, splitSlash_of_no_slash elem (hno elem (by simp)), hrest]
      rfl

theorem dotdot_facts :
    goStr ".." ≠ [] ∧ goStr ".." ≠ goStr "." ∧ slash ∉ goStr ".." := by decide

theorem cleanStack_nil (rooted : Bool) : CleanStack rooted [] := by
  simp [CleanStack]

theorem cleanStack_append_plain (rooted : Bool) (out : List GoString) (elem : GoString)
    (hout : CleanStack rooted out) (h1 : elem ≠ []) (h2 : elem ≠ goStr ".")
    (h3 : slash ∉ elem) (h4 : elem ≠ goStr "..") : CleanStack rooted (out ++ [elem]) := by
  obtain ⟨hall, hpair, hroot⟩ := hout
  refine ⟨?_, ?_, ?_⟩
  · intro e he
    rcases List.mem_append.mp he with hin | hlast
    · exact hall e hin
    · rw [List.mem_singleton.mp hlast]; exact ⟨h1, h2, h3⟩
  · rw [List.pairwise_append]
    refine ⟨hpair, List.pairwise_singleton _ _, ?_⟩
    intro a _ b hb hdd
    rw [List.mem_singleton.mp hb] at hdd
    exact absurd hdd h4
  · intro hr hmem
    rcases List.mem_append.mp hmem with hin | hlast
    · exact hroot hr hin
    · exact h4 (List.mem_singleton.mp hlast).symm

theorem cleanStack_dropLast (rooted : Bool) (out : List GoString)
    (hout : CleanStack rooted out) : CleanStack rooted out.dropLast := by
  obtain ⟨hall, hpair, hroot⟩ := hout
  have hsub : out.dropLast.Sublist out := List.dropLast_sublist out
  exact ⟨fun e he => hall e (hsub.subset he), hpair.sublist hsub,
    fun hr hmem => hroot hr (hsub.subset hmem)⟩

theorem all_dotdot_of_last (rooted : Bool) (out : List GoString)
    (hout : CleanStack rooted out) (hlast : out.getLast? = some (goStr "..")) :
    ∀ elem ∈ out, elem = goStr ".." := by
  obtain ⟨_, hpair, _⟩ := hout
  obtain ⟨front, hfront⟩ : ∃ front, out = front ++ [goStr ".."] := by
    rcases List.eq_nil_or_concat out with hnil | ⟨front, last, hcat⟩
    · rw [hnil] at hlast; simp at hlast
    · rw [hcat, List.concat_eq_append, List.getLast?_concat] at hlast
      exact ⟨front, by rw [hcat, List.concat_eq_append, Option.some.inj hlast]⟩
  intro elem helem
  rw [hfront] at helem hpair
  rcases List.mem_append.mp helem with hin | hl
  · exact (List.pairwise_append.mp hpair).2.2 elem hin (goStr "..") (by simp) rfl
  · exact List.mem_singleton.mp hl

theorem cleanStack_append_dotdot (out : List GoString)
    (hout : CleanStack false out) (hall : ∀ elem ∈ out, elem = goStr "..") :
    CleanStack false (out ++ [goStr ".."]) := by
  obtain ⟨helems, hpair, _⟩ := hout
  refine ⟨?_, ?_, by simp⟩
  · intro e he
    rcases List.mem_append.mp he with hin | hlast
    · exact helems e hin
    · rw [List.mem_singleton.mp hlast]; exact dotdot_facts
  · rw [List.pairwise_append]
    exact ⟨hpair, List.pairwise_singleton _ _, fun a ha _ _ _ => hall a ha⟩

theorem cleanStep_cleanStack (rooted : Bool) (out : List GoString) (elem : GoString)
    (hout : CleanStack rooted out) (hno : slash ∉ elem) :
    CleanStack rooted (cleanStep rooted out elem) := by
  unfold cleanStep
  by_cases h1 : elem = [] ∨ elem = goStr "."
  · rw [if_pos h1]; exact hout
  · rw [if_neg h1]
    by_cases h2 : elem = goStr ".."
    · rw [if_pos h2]
      cases hlast : out.getLast? with
      | none =>
        have hnil : out = [] := List.getLast?_eq_none_iff.mp hlast
        cases rooted with
        | true => simpa using hout
        | false =>
          subst hnil
          subst h2
          simpa using cleanStack_append_dotdot [] (cleanStack_nil false) (by simp)
      | some last =>
        by_cases h3 : last = goStr ".."
        · simp only [h3, if_true]
          subst h3
          have hall := all_dotdot_of_last rooted out hout hlast
          cases rooted with
          | true =>
            have hmem : goStr ".." ∈ out := List.mem_of_getLast?_eq_some hlast
            exact absurd hmem (hout.2.2 rfl)
          | false =>
            subst h2
            exact cleanStack_append_dotdot out hout hall
        · simp only [h3, if_false]
          exact cleanStack_dropLast rooted out hout
    · rw [if_neg h2]
      have h1n : elem ≠ [] := fun h => h1 (Or.inl h)
      have h1d : elem ≠ goStr "." := fun h => h1 (Or.inr h)
      exact cleanStack_append_plain rooted out elem hout h1n h1d hno h2

theorem foldl_cleanStep_cleanStack (rooted : Bool) (elems : List GoString) :
    ∀ out : List GoString, CleanStack rooted out → (∀ elem ∈ elems, slash ∉ elem) →
      CleanStack rooted (elems.foldl (cleanStep rooted) out) := by
  induction elems with
  | nil => intro out hout _; exact hout
  | cons elem rest ih =>
    intro out hout hno
    rw [List.foldl_cons]
    exact ih _ (cleanStep_cleanStack rooted out elem hout (hno elem (by simp)))
      (fun e he => hno e (List.mem_cons_of_mem _ he))

theorem cleanElems_cleanStack (path : GoString) :
    CleanStack (isRooted path) (cleanElems path) :=
  foldl_cleanStep_cleanStack _ _ [] (cleanStack_nil _) (no_slash_of_mem_splitSlash path)

theorem cleanStep_of_cleanStack_append (rooted : Bool) (acc : List GoString)
    (elem : GoString) (hstack : CleanStack rooted (acc ++ [elem])) :
    cleanStep rooted acc elem = acc ++ [elem] := by
  obtain ⟨hall, hpair, hroot⟩ := hstack
  obtain ⟨h1, h2, _⟩ := hall elem (by simp)
  have h12 : ¬ (elem = [] ∨ elem = goStr ".") := fun h => h.elim h1 h2
  unfold cleanStep
  rw [if_neg h12]
  by_cases hdd : elem = goStr ".."
  · rw [if_pos hdd]
    have hacc : ∀ a ∈ acc, a = goStr ".." := fun a ha =>
      (List.pairwise_append.mp hpair).2.2 a ha elem (by simp) hdd
    have hnot : rooted = false := by
      cases rooted with
      | false => rfl
      | true => exact absurd (by simp [hdd]) (hroot rfl)
    cases hlast : acc.getLast? with
    | none => simp [hnot]
    | some last =>
      have hl : last = goStr ".." := hacc last (List.mem_of_getLast?_eq_some hlast)
      simp [hl]
  · rw [if_neg hdd]

theorem foldl_cleanStep_of_cleanStack (rooted : Bool) (rest : List GoString) :
    ∀ acc : List GoString, CleanStack rooted (acc ++ rest) →
      rest.foldl (cleanStep rooted) acc = acc ++ rest := by
  induction rest with
  | nil => intro acc _; simp
  | cons elem rest ih =>
    intro acc hstack
    have hprefix : CleanStack rooted (acc ++ [elem]) := by
      obtain ⟨hall, hpair, hroot⟩ := hstack
      have hsub : (acc ++ [elem]).Sublist (acc ++ elem :: rest) :=
        List.Sublist.append_left (List.cons_sublist_cons.mpr (List.nil_sublist rest)) acc
      exact ⟨fun e he => hall e (hsub.subset he), hpair.sublist hsub,
        fun hr hmem => hroot hr (hsub.subset hmem)⟩
    rw [List.foldl_cons, cleanStep_of_cleanStack_append rooted acc elem hprefix]
    have hnext : CleanStack rooted ((acc ++ [elem]) ++ rest) := by simpa using hstack
    simpa using ih (acc ++ [elem]) hnext

theorem head_joinSlash (elem : GoString) (rest : List GoString) (hne : elem ≠ []) :
    (joinSlash (elem :: rest)).head? = elem.head? := by
  cases elem with
  | nil => exact absurd rfl hne
  | cons c cs => cases rest <;> simp [joinSlash]

theorem isRooted_joinSlash (out : List GoString) (hne : out ≠ [])
    (hall : ∀ elem ∈ out, elem ≠ [] ∧ elem ≠ goStr "." ∧ slash ∉ elem) :
    isRooted (joinSlash out) = false := by
  cases out with
  | nil => exact absurd rfl hne
  | cons elem rest =>
    obtain ⟨h1, _, h3⟩ := hall elem (by simp)
    unfold isRooted
    rw [head_joinSlash elem rest h1]
    cases elem with
    | nil => exact absurd rfl h1
    | cons c cs =>
      have hc : c ≠ slash := fun h => h3 (by simp [h])
      simp [hc]

theorem cleanElems_filepathClean (path : GoString) (hne : path ≠ []) :
    cleanElems (filepathClean path) = cleanElems path
    ∧ isRooted (filepathClean path) = isRooted path := by
  have hstack := cleanElems_cleanStack path
  unfold filepathClean
  rw [if_neg hne]
  cases hroot : isRooted path with
  | true =>
    rw [hroot] at hstack
    simp only [if_true]
    have hr : isRooted (slash :: joinSlash (cleanElems path)) = true := by
      simp [isRooted]
    refine ⟨?_, hr⟩
    generalize cleanElems path = out at hstack hr ⊢
    show (splitSlash (slash :: joinSlash out)).foldl
      (cleanStep (isRooted (slash :: joinSlash out))) [] = out
    rw [hr]
    by_cases hout : out = []
    · subst hout
      simp [splitSlash, joinSlash, cleanStep]
    · have hsplit : splitSlash (slash :: joinSlash out) = [] :: out := by
        simp [splitSlash, splitSlash_joinSlash out hout (fun e he => (hstack.1 e he).2.2)]
      rw [hsplit, List.foldl_cons]
      have hstep : cleanStep true [] [] = [] := by simp [cleanStep]
      rw [hstep]
      simpa using foldl_cleanStep_of_cleanStack true out [] (by simpa using hstack)
  | false =>
    rw [hroot] at hstack
    simp only [Bool.false_eq_true, if_false]
    by_cases hout : cleanElems path = []
    · rw [if_pos hout, hout]
      decide
    · rw [if_neg hout]
      have hr : isRooted (joinSlash (cleanElems path)) = false :=
        isRooted_joinSlash _ hout hstack.1
      refine ⟨?_, hr⟩
      have hsplit := splitSlash_joinSlash (cleanElems path) hout
        (fun e he => (hstack.1 e he).2.2)
      have hfold := foldl_cleanStep_of_cleanStack false (cleanElems path) []
        (by simpa using hstack)
      show (splitSlash (joinSlash (cleanElems path))).foldl
        (cleanStep (isRooted (joinSlash (cleanElems path)))) [] = cleanElems path
      rw [hsplit, hr]
      simpa using hfold

theorem cleanStep_plain (rooted : Bool) (out : List GoString) (name : GoString)
    (hplain : isPlainName name) : cleanStep rooted out name = out ++ [name] := by
  obtain ⟨h1, _, h3, h4⟩ := hplain
  have h13 : ¬ (name = [] ∨ name = goStr ".") := fun h => h.elim h1 h3
  simp [cleanStep, h13, h4]

theorem cleanElems_filepathJoin (dir name : GoString) (hplain : isPlainName name) :
    cleanElems (filepathJoin dir name) = cleanElems dir ++ [name]
    ∧ isRooted (filepathJoin dir name) = isRooted dir := by
  have hname : name ≠ [] := hplain.1
  by_cases hdir : dir = []
  · subst hdir
    have hjoin : filepathJoin [] name = filepathClean name := by
      simp [filepathJoin, hname]
    have hclean := cleanElems_filepathClean name hname
    have hroot : isRooted name = false := by
      have h := isRooted_joinSlash [name] (by simp)
        (fun e he => by
          rw [List.mem_singleton.mp he]; exact ⟨hplain.1, hplain.2.2.1, hplain.2.1⟩)
      simpa [joinSlash] using h
    have hnil : cleanElems [] = [] := by decide
    rw [hjoin, hclean.1, hclean.2, hroot, hnil]
    refine ⟨?_, by decide⟩
    unfold cleanElems
    rw [hroot, splitSlash_of_no_slash name hplain.2.1]
    simpa using cleanStep_plain false [] name hplain
  · have hjoin : filepathJoin dir name = filepathClean (dir ++ slash :: name) := by
      simp [filepathJoin, hdir]
    have hne : dir ++ slash :: name ≠ [] := by simp [hdir]
    have hclean := cleanElems_filepathClean (dir ++ slash :: name) hne
    have hroot : isRooted (dir ++ slash :: name) = isRooted dir := by
      cases dir with
      | nil => exact absurd rfl hdir
      | cons c cs => simp [isRooted]
    rw [hjoin, hclean.1, hclean.2, hroot]
    refine ⟨?_, rfl⟩
    unfold cleanElems
    rw [hroot, splitSlash_append_slash, splitSlash_of_no_slash name hplain.2.1,
      List.foldl_append]
    simp [cleanStep_plain _ _ name hplain]

/-- C17, as stated, fails: with the configuration directory `/etc/xray`, the
payload `cp_../passwd` makes the handler hand `/etc/passwd` to
`copyConfigFile`, a path outside the directory. -/
theorem copyConfigSourcePath_escapes :
    copyConfigSourcePath sampleXrayHandler (goStr "cp_../passwd") = goStr "/etc/passwd"
    ∧ isInsideDir sampleXrayHandler.xrayConfigsDir
        (copyConfigSourcePath sampleXrayHandler (goStr "cp_../passwd")) = false := by
  decide

/-- C17, amended: for every callback payload whose file name (the payload
stripped of `cp_`) is a plain name, not empty, without a path separator and
neither `.` nor `..`, the source path handed to `copyConfigFile` is the
cleaned configuration directory followed by that one name, an entry inside
the configured directory. -/
theorem copyConfigSourcePath_inside (h : Handler) (data : GoString)
    (hplain : isPlainName (copyConfigFileName data)) :
    cleanElems (copyConfigSourcePath h data)
      = cleanElems h.xrayConfigsDir ++ [copyConfigFileName data]
    ∧ isInsideDir h.xrayConfigsDir (copyConfigSourcePath h data) = true := by
  have hjoin := cleanElems_filepathJoin h.xrayConfigsDir (copyConfigFileName data) hplain
  have hdd : copyConfigFileName data ≠ goStr ".." := hplain.2.2.2
  refine ⟨hjoin.1, ?_⟩
  unfold isInsideDir copyConfigSourcePath
  rw [hjoin.1, hjoin.2]
  have hpre : (cleanElems h.xrayConfigsDir).isPrefixOf
      (cleanElems h.xrayConfigsDir ++ [copyConfigFileName data]) = true := by
    rw [List.isPrefixOf_iff_prefix]
    exact List.prefix_append _ _
  simp [hpre, Ne.symm hdd]

/-- C17, amended, on the payload of the button for `client-eu.json`: the
source path is `/etc/xray/client-eu.json`. -/
theorem copyConfigSourcePath_inside_witness :
    isPlainName (copyConfigFileName (goStr "cp_client-eu.json"))
    ∧ copyConfigSourcePath sampleXrayHandler (goStr "cp_client-eu.json")
        = goStr "/etc/xray/client-eu.json"
    ∧ isInsideDir sampleXrayHandler.xrayConfigsDir
        (copyConfigSourcePath sampleXrayHandler (goStr "cp_client-eu.json")) = true :=
  ⟨⟨by decide, by decide, by decide, by decide⟩, by decide,
    (copyConfigSourcePath_inside sampleXrayHandler (goStr "cp_client-eu.json")
      ⟨by decide, by decide, by decide, by decide⟩).2⟩

/-! ## The callback handlers: theorems -/

theorem second_byte_ne (pre rest : GoString) (hsecond : pre.get? 1 = some 156) :
    pre ++ rest ≠ failureNoticeText := by
  intro h
  have h1 := congrArg (fun l => l.get? 1) h
  have hf : failureNoticeText.get? 1 = some 154 := by decide
  match pre, hsecond with
  | a :: b :: tail, hs =>
    simp only [List.cons_append, List.get?_cons_succ, List.get?_cons_zero] at h1 hs
    rw [hf, hs] at h1
    exact absurd h1 (by decide)

theorem first_byte_ne (pre rest : GoString) (c : UInt8) (hfirst : pre.head? = some c)
    (hc : c ≠ 226) : pre ++ rest ≠ failureNoticeText := by
  intro h
  have h1 := congrArg List.head? h
  have hf : failureNoticeText.head? = some 226 := by decide
  match pre, hfirst with
  | a :: tail, hs =>
    simp only [List.cons_append, List.head?_cons, Option.some.injEq] at h1 hs
    rw [hf, hs] at h1
    exact hc (Option.some.inj h1)

/-- A body of the five handlers that returns nil has ended with an edit of
the originating message that carries a keyboard and is not the failure
notice, the transport has accepted that edit, and every earlier call of the
body is a progress notice without a keyboard. -/
theorem callbackBody_success (h : Handler) (editFails : Nat → Bool)
    (handler : CallbackHandler) (chatID messageID : Int) (update : Update)
    (hok : (callbackBody h editFails handler chatID messageID update).failed = false) :
    ∃ text markup,
      (callbackBody h editFails handler chatID messageID update).calls.getLast?
        = some (.EditMessageText chatID messageID (.literal text) (some markup))
      ∧ text ≠ failureNoticeText
      ∧ (∀ call ∈ (callbackBody h editFails handler chatID messageID update).calls.dropLast,
          ∃ notice, call = .EditMessageText chatID messageID (.literal notice) none)
      ∧ editFails
          ((callbackBody h editFails handler chatID messageID update).calls.length - 1)
        = false := by
  cases handler with
  | ListConfigXrayHandler trimSpace readDir =>
    cases readDir with
    | error err => simp [callbackBody] at hok
    | ok dirEntries =>
      simp only [callbackBody] at hok ⊢
      exact ⟨_, _, rfl, by decide, by simp, by simpa using hok⟩
  | RestartXrayHandler restartService =>
    cases h0 : editFails 0 with
    | true => simp [callbackBody, h0] at hok
    | false =>
      cases restartService with
      | some err => simp [callbackBody, h0] at hok
      | none =>
        simp only [callbackBody, h0] at hok ⊢
        refine ⟨_, _, rfl, ?_, by simp, by simpa using hok⟩
        rw [List.append_assoc]
        exact second_byte_ne _ _ (by decide)
  | CopyConfigXrayHandler locate faults fs =>
    cases h0 : editFails 0 with
    | true => simp [callbackBody, h0] at hok
    | false =>
      simp only [callbackBody, h0] at hok ⊢
      generalize (copyConfigFileAt locate faults fs _ h.xrayConfigPath).1 = copied at hok ⊢
      cases copied with
      | some err => simp at hok
      | none =>
        refine ⟨_, _, rfl, ?_, by simp, by simpa using hok⟩
        rw [List.append_assoc, List.append_assoc, List.append_assoc]
        exact second_byte_ne _ _ (by decide)
  | SpeedtestHandler durationString client =>
    cases h0 : editFails 0 with
    | true => simp [callbackBody, h0] at hok
    | false =>
      simp only [callbackBody, h0] at hok ⊢
      generalize (runSpeedTest client).1 = measured at hok ⊢
      cases measured with
      | error err => simp at hok
      | ok result =>
        refine ⟨_, _, rfl, ?_, by simp, by simpa using hok⟩
        unfold formatSpeedTestMessage
        simp only [List.append_assoc]
        exact first_byte_ne _ _ 60 (by decide) (by decide)
  | MainHandler =>
    simp only [callbackBody] at hok ⊢
    exact ⟨_, _, rfl, by decide, by simp, by simpa using hok⟩

theorem handleCallbackCommand_no_callback (h : Handler) (update : Update)
    (action : GoString) (run : ActionBody) (now untilClock : Nat)
    (hcb : update.CallbackQuery = none) :
    handleCallbackCommand h update action run now untilClock = (h, []) := by
  simp [handleCallbackCommand, hcb]

theorem handleCallbackCommand_incomplete (h : Handler) (update : Update)
    (action : GoString) (run : ActionBody) (now untilClock : Nat) (callback : CallbackQuery)
    (hcb : update.CallbackQuery = some callback)
    (hbad : callback.Message.Type_ ≠ MaybeInaccessibleMessageType.Message
      ∨ callback.Message.Message = none) :
    handleCallbackCommand h update action run now untilClock = (h, []) := by
  by_cases hty : callback.Message.Type_ = MaybeInaccessibleMessageType.Message
  · rcases hbad with hne | hnil
    · exact absurd hty hne
    · simp [handleCallbackCommand, hcb, hty, hnil]
  · simp [handleCallbackCommand, hcb, hty]

/-- C7, amended: a callback update that passes the guard of
`handleCallbackCommand`, handled by one of the five callback handlers, ends
in exactly one of three outcomes, each with its terminal message as the last
transport call: the lock rejects and the only call is the busy alert; the
body returns an error and the last call is the generic failure notice, after
the acknowledgement and the body's calls; or the body returns nil and the
last call is the body's own edit of the originating message, with a keyboard,
accepted by the transport and preceded only by the acknowledgement and
progress notices without a keyboard.  An update with a plain message handed
to `DefaultHandler` ends with exactly one call, the busy notice or the main
menu.  An update that fails the guard gets no call: for
`handleCallbackCommand` an update with no callback query or with an
inaccessible or nil message, which also leaves the handler as it was; for
`DefaultHandler` an update with no message, unless the lock rejects it and it
has a callback query, when it gets the busy alert. -/
theorem dispatcher_terminal_message (h : Handler) (editFails : Nat → Bool)
    (handler : CallbackHandler) (update : Update) (now untilClock : Nat) :
    (update.CallbackQuery = none →
      runCallbackHandler h editFails handler update now untilClock = (h, []))
    ∧ (∀ callback : CallbackQuery, update.CallbackQuery = some callback →
        (callback.Message.Type_ ≠ MaybeInaccessibleMessageType.Message
          ∨ callback.Message.Message = none) →
        runCallbackHandler h editFails handler update now untilClock = (h, []))
    ∧ (∀ (callback : CallbackQuery) (message : Message),
        update.CallbackQuery = some callback →
        callback.Message.Type_ = MaybeInaccessibleMessageType.Message →
        callback.Message.Message = some message →
          ((now : Int) < h.busyUntil
            ∧ (runCallbackHandler h editFails handler update now untilClock).2 =
                [BotCall.AnswerCallbackQuery callback.ID true
                  (.busyNotice h.busyAction
                    (roundDurationToSeconds (timeSub h.busyUntil untilClock)))])
          ∨ (¬ (now : Int) < h.busyUntil
            ∧ (callbackBody h editFails handler message.Chat.ID message.ID update).failed = true
            ∧ (runCallbackHandler h editFails handler update now untilClock).2 =
                BotCall.AnswerCallbackQuery callback.ID false (.literal [])
                  :: (callbackBody h editFails handler message.Chat.ID message.ID update).calls
                    ++ [BotCall.EditMessageText message.Chat.ID message.ID
                          (.literal failureNoticeText) (some mainMenuKeyboard)])
          ∨ (¬ (now : Int) < h.busyUntil
            ∧ (callbackBody h editFails handler message.Chat.ID message.ID update).failed = false
            ∧ (runCallbackHandler h editFails handler update now untilClock).2 =
                BotCall.AnswerCallbackQuery callback.ID false (.literal [])
                  :: (callbackBody h editFails handler message.Chat.ID message.ID update).calls
            ∧ ∃ text markup,
                (callbackBody h editFails handler message.Chat.ID message.ID
                    update).calls.getLast?
                  = some (.EditMessageText message.Chat.ID message.ID (.literal text)
                      (some markup))
                ∧ text ≠ failureNoticeText
                ∧ (∀ call ∈ (callbackBody h editFails handler message.Chat.ID message.ID
                      update).calls.dropLast,
                    ∃ notice, call = .EditMessageText message.Chat.ID message.ID
                      (.literal notice) none)
                ∧ editFails
                    ((callbackBody h editFails handler message.Chat.ID message.ID
                      update).calls.length - 1) = false))
    ∧ (∀ message : Message, update.Message = some message →
        ((now : Int) < h.busyUntil
          ∧ (DefaultHandler h update now untilClock).2 =
              sendBusyMessage update
                { action := h.busyAction, remaining := timeSub h.busyUntil untilClock }
          ∧ (DefaultHandler h update now untilClock).2.length = 1)
        ∨ (¬ (now : Int) < h.busyUntil
          ∧ (DefaultHandler h update now untilClock).2 =
              [BotCall.SendMessage message.Chat.ID
                (.literal
                  (goStr "👋 Choose an action:\n• apply config\n• check speed\n• restart Xray"))
                (some mainMenuKeyboard)]))
    ∧ (update.Message = none → ¬ (now : Int) < h.busyUntil →
        (DefaultHandler h update now untilClock).2 = [])
    ∧ (update.Message = none → update.CallbackQuery = none →
        (DefaultHandler h update now untilClock).2 = [])
    ∧ (∀ callback : CallbackQuery, update.CallbackQuery = some callback →
        (now : Int) < h.busyUntil →
        DefaultHandler h update now untilClock =
          (h, [BotCall.AnswerCallbackQuery callback.ID true
            (.busyNotice h.busyAction
              (roundDurationToSeconds (timeSub h.busyUntil untilClock)))])) := by
  refine ⟨?_, ?_, ?_, ?_, ?_, ?_, ?_⟩
  · intro hcb
    exact handleCallbackCommand_no_callback h update _ _ now untilClock hcb
  · intro callback hcb hbad
    exact handleCallbackCommand_incomplete h update _ _ now untilClock callback hcb hbad
  · intro callback message hcb hty hmsg
    unfold runCallbackHandler
    by_cases hb : (now : Int) < h.busyUntil
    · left
      refine ⟨hb, ?_⟩
      rw [handleCallbackCommand_rejected h update _ _ now untilClock callback message
        hcb hty hmsg hb]
    · right
      rw [handleCallbackCommand_admitted h update _ _ now untilClock callback message
        hcb hty hmsg hb]
      by_cases hf :
          (callbackBody h editFails handler message.Chat.ID message.ID update).failed = true
      · left
        exact ⟨hb, hf, by simp [hf, sendHandlerError, failureNoticeText]⟩
      · right
        have hf2 :
            (callbackBody h editFails handler message.Chat.ID message.ID update).failed
              = false := by
          simpa using hf
        exact ⟨hb, hf2, by simp [hf2],
          callbackBody_success h editFails handler message.Chat.ID message.ID update hf2⟩
  · intro message hmsg
    by_cases hb : (now : Int) < h.busyUntil
    · left
      rw [DefaultHandler_rejected h update now untilClock hb]
      refine ⟨hb, rfl, ?_⟩
      unfold sendBusyMessage
      cases update.CallbackQuery with
      | none => simp [getMessageChatID, hmsg]
      | some callback => simp
    · right
      rw [DefaultHandler_admitted h update now untilClock hb]
      exact ⟨hb, by simp [getMessageChatID, hmsg]⟩
  · intro hmsg hb
    rw [DefaultHandler_admitted h update now untilClock hb]
    simp [getMessageChatID, hmsg]
  · intro hmsg hcb
    by_cases hb : (now : Int) < h.busyUntil
    · rw [DefaultHandler_rejected h update now untilClock hb]
      simp [sendBusyMessage, hcb, getMessageChatID, hmsg]
    · rw [DefaultHandler_admitted h update now untilClock hb]
      simp [getMessageChatID, hmsg]
  · intro callback hcb hb
    rw [DefaultHandler_rejected h update now untilClock hb]
    simp [sendBusyMessage, hcb, busyMessageText]

/-- C7, amended, on an admitted button press handled by `MainHandler` with a
transport that accepts every call: the calls are the acknowledgement and the
edit that shows the main menu. -/
theorem dispatcher_terminal_message_witness :
    sampleCallbackUpdate.CallbackQuery = some sampleCallback
    ∧ (runCallbackHandler (newTestHandler (90 * second)) transportAccepts
        CallbackHandler.MainHandler sampleCallbackUpdate 5 5).2 =
        [BotCall.AnswerCallbackQuery (goStr "q1") false (.literal []),
         BotCall.EditMessageText 7 11
           (.literal (goStr "🏠 Main menu. Choose an action:")) (some mainMenuKeyboard)] := by
  refine ⟨rfl, ?_⟩
  rcases (dispatcher_terminal_message (newTestHandler (90 * second)) transportAccepts
    CallbackHandler.MainHandler sampleCallbackUpdate 5 5).2.2.1 sampleCallback sampleMessage
    rfl rfl rfl with hbusy | hfail | hok
  · exact absurd hbusy.1 (by decide)
  · exact absurd hfail.2.1 (by decide)
  · exact hok.2.2.1

end XrayTlg
